import Mathlib

/-!
Verification of the symbolic-reference resolution engine (LinkResolver)
of a class-based managed runtime.  The embedding covers CallInfo
construction, method/interface/field resolution, the dispatch decisions
for static, special, virtual, interface, handle, and dynamic linkage,
access checking, and loader-constraint enforcement, following
`src/hotspot/src/share/vm/interpreter/linkResolver.cpp`.

External collaborators (the type registry's hierarchy queries, the
system dictionary, and the reflection access verifier) are modelled as
environment components; definitions marked "Modelled from the spec:"
follow the natural-language specification of the collaborator, whose
implementation is outside the embedded file.
-/

set_option maxHeartbeats 1000000

namespace LinkRes

/-- Interned symbol (a name or a structural descriptor); identity-comparable. -/
abbrev Sym := Nat

/-- Kinds of errors thrown during linkage; mirrors the Java error classes
used by `linkResolver.cpp`. -/
inductive ThrowKind where
  | no_such_method
  | no_such_field
  | incompatible_class_change
  | abstract_method
  | illegal_access
  | loader_constraint
  | bootstrap_method
  | null_pointer
  | internal_err
  | init_fail
  | other_linkage (code : Nat)
  | other (code : Nat)
deriving Repr, DecidableEq

/-- Whether the error class is a subclass of `java.lang.LinkageError`
(`PENDING_EXCEPTION->is_a(SystemDictionary::LinkageError_klass())`). -/
def ThrowKind.is_linkage_error : ThrowKind → Bool
  | .no_such_method => true
  | .no_such_field => true
  | .incompatible_class_change => true
  | .abstract_method => true
  | .illegal_access => true
  | .loader_constraint => true
  | .bootstrap_method => true
  | .init_fail => true
  | .other_linkage _ => true
  | _ => false

/-- Whether the error class is `java.lang.BootstrapMethodError`
(a subclass of `LinkageError`). -/
def ThrowKind.is_bootstrap_method_error : ThrowKind → Bool
  | .bootstrap_method => true
  | _ => false

/-- A thrown error: either a bare error or one wrapping a cause
(`THROW_MSG_CAUSE` / `THROW_CAUSE`). -/
inductive Throwable where
  | simple (kind : ThrowKind)
  | wrapped (kind : ThrowKind) (cause : Throwable)
deriving Repr, DecidableEq

/-- Top-level class of a throwable (what `is_a` inspects). -/
def Throwable.kind : Throwable → ThrowKind
  | .simple k => k
  | .wrapped k _ => k

/-- `methodOopDesc::nonvirtual_vtable_index`: the method is never put in
a vtable and can be statically bound. -/
def nonvirtual_vtable_index : Int := -2

/-- `methodOopDesc::invalid_vtable_index`: no valid vtable index. -/
def invalid_vtable_index : Int := -4

/-- A method entry: member descriptor, access flags, vtable index, and
whether its intrinsic id is signature-polymorphic. -/
structure Method where
  name : Sym
  signature : Sym
  holder : Nat
  is_static : Bool
  is_abstract : Bool
  is_public : Bool
  is_protected : Bool
  is_private : Bool
  is_final : Bool
  vtable_index : Int
  is_sig_poly : Bool
deriving Repr, DecidableEq

/-- A field entry: member descriptor, access flags, index and offset. -/
structure Fld where
  name : Sym
  signature : Sym
  is_static : Bool
  is_final : Bool
  is_public : Bool
  is_protected : Bool
  is_private : Bool
  index : Nat
  offset : Nat
deriving Repr, DecidableEq

/-- A class or interface, addressed by a stable integer id; supplies the
read-only hierarchy, declared members, and vtable contents that the
resolution engine consumes. -/
structure Klass where
  id : Nat
  super_id : Option Nat
  is_interface : Bool
  is_array : Bool
  is_abstract : Bool
  acc_super : Bool
  loader : Nat
  pkg : Nat
  methods : List Method
  fields : List Fld
  direct_interfaces : List Nat
  transitive_interfaces : List Nat
  vtable : List Method
deriving Repr, DecidableEq

/-- Classification of a signature-polymorphic name
(`MethodHandles::signature_polymorphic_name_id`). -/
inductive PolyKind where
  | intrinsic_kind
  | invoker_kind
deriving Repr, DecidableEq

/-- The environment: the type-registry arena plus the external
collaborators that `linkResolver.cpp` consults. -/
structure Env where
  klasses : List Klass
  object_id : Nat
  method_handle_id : Nat
  clone_name : Sym
  ctor_name : Sym
  enable_invoke_dynamic : Bool
  allow_non_virtual_calls : Bool
  init_state : List Nat
  init_failure : Nat → Bool
  sig_types : Sym → List Nat
  loader_lookup : Nat → Nat → Option Nat
  poly_name_kind : Sym → Option PolyKind
  find_intrinsic : Sym → Sym → Option Method
  find_invoker : Sym → Sym → Nat → Option (Method × Option Nat × Option Nat)
  find_dynamic_invoker : Nat → Nat → Sym → Sym →
    Except Throwable (Option Method × Option Nat × Option Nat)

/-- Fetch a klass record by id from the arena. -/
def Env.getKlass (env : Env) (i : Nat) : Option Klass :=
  env.klasses.find? (fun k => decide (k.id = i))

/-- First hit of an option-valued function over a list. -/
def firstSome {α β : Type} (f : α → Option β) : List α → Option β
  | [] => none
  | a :: rest =>
    match f a with
    | some b => some b
    | none => firstSome f rest

/-- List indexing written out so its inversion lemmas are self-contained. -/
def nth {α : Type} : List α → Nat → Option α
  | [], _ => none
  | a :: _, 0 => some a
  | _ :: rest, n + 1 => nth rest n

/-- Index of the first entry of a vtable matching a name and signature. -/
def vtSearch (name sig : Sym) : List Method → Option Nat
  | [] => none
  | m :: rest =>
    if m.name = name ∧ m.signature = sig then some 0
    else (vtSearch name sig rest).map (· + 1)

/-- The super chain of a klass, the klass itself first; bounded by fuel. -/
def superChainAux (env : Env) : Nat → Option Nat → List Klass
  | 0, _ => []
  | _ + 1, none => []
  | fuel + 1, some i =>
    match env.getKlass i with
    | none => []
    | some k => k :: superChainAux env fuel k.super_id

/-- The super chain of the klass with the given id. -/
def superChain (env : Env) (i : Nat) : List Klass :=
  superChainAux env (env.klasses.length + 1) (some i)

/-- The ids of the super chain of the klass with the given id. -/
def superChainIds (env : Env) (i : Nat) : List Nat :=
  (superChain env i).map Klass.id

/-- Modelled from the spec: the type registry's subtype query
(`Klass::is_subtype_of`); a klass is a subtype of every entry of its
super chain and of every transitively implemented interface. -/
def isSubtypeOf (env : Env) (a b : Nat) : Bool :=
  (superChain env a).any (fun k => decide (k.id = b)) ||
  (match env.getKlass a with
   | some k => k.transitive_interfaces.any (fun j => decide (j = b))
   | none => false)

/-- A declared method of a klass matching a name and signature exactly
(`instanceKlass::find_method`). -/
def findLocalMethod (k : Klass) (name sig : Sym) : Option Method :=
  k.methods.find? (fun m => decide (m.name = name ∧ m.signature = sig))

/-- Modelled from the spec: `Klass::uncached_lookup_method` walks
`type → superType → …` matching declared methods by exact name and
descriptor, statics included, stopping at the first match. -/
def uncachedLookupMethod (env : Env) (i : Nat) (name sig : Sym) : Option Method :=
  firstSome (fun k => findLocalMethod k name sig) (superChain env i)

/-- Modelled from the spec: `instanceKlass::lookup_method_in_all_interfaces`
searches the transitively implemented interfaces in traversal order for
a declared method with matching name and descriptor. -/
def lookupMethodInAllInterfaces (env : Env) (i : Nat) (name sig : Sym) : Option Method :=
  match env.getKlass i with
  | none => none
  | some k =>
    firstSome (fun j =>
      match env.getKlass j with
      | some ik => findLocalMethod ik name sig
      | none => none) k.transitive_interfaces

/-- `instanceKlass::method_at_vtable`, embedded from its inline
definition in the klass header: read the vtable entry at the given
index.  The original checks `index >= 0` only by a debug-build assert
and then reads `ve[index]`, so an out-of-range read — undefined behavior
in a product build — is modelled as yielding nothing. -/
def methodAtVtable (env : Env) (i : Nat) (idx : Int) : Option Method :=
  match env.getKlass i with
  | none => none
  | some k => if idx < 0 then none else nth k.vtable idx.toNat

/-- Modelled from the spec: `klassVtable::index_of_miranda` locates the
vtable slot whose entry matches the given name and descriptor. -/
def indexOfMiranda (env : Env) (i : Nat) (name sig : Sym) : Int :=
  match env.getKlass i with
  | none => invalid_vtable_index
  | some k =>
    match vtSearch name sig k.vtable with
    | some j => (j : Int)
    | none => invalid_vtable_index

/-- Whether the klass with the given id is an interface. -/
def klassIsInterface (env : Env) (i : Nat) : Bool :=
  match env.getKlass i with
  | some k => k.is_interface
  | none => false

/-- Whether the klass with the given id is an array klass. -/
def klassIsArray (env : Env) (i : Nat) : Bool :=
  match env.getKlass i with
  | some k => k.is_array
  | none => false

/-- Defining loader of the klass with the given id. -/
def klassLoader (env : Env) (i : Nat) : Nat :=
  match env.getKlass i with
  | some k => k.loader
  | none => 0

/-- Static-skipping loop of `LinkResolver::lookup_instance_method_in_klasses`:
while the result is a static method, restart the lookup at the holder's
superclass. -/
def skipStaticsAux (env : Env) (name sig : Sym) : Nat → Option Method → Option Method
  | _, none => none
  | 0, some m => if m.is_static then none else some m
  | fuel + 1, some m =>
    if m.is_static then
      match (env.getKlass m.holder).bind Klass.super_id with
      | none => none
      | some s => skipStaticsAux env name sig fuel (uncachedLookupMethod env s name sig)
    else some m

/-- `LinkResolver::lookup_instance_method_in_klasses`: hierarchy lookup that
returns the first instance (non-static) method. -/
def lookupInstanceMethodInKlasses (env : Env) (i : Nat) (name sig : Sym) : Option Method :=
  skipStaticsAux env name sig (env.klasses.length + 1)
    (uncachedLookupMethod env i name sig)

/-- `LinkResolver::lookup_method_in_klasses`: hierarchy lookup including
statics; for array klasses the raw hierarchy result is used as is, and with
invokedynamic enabled a declared signature-polymorphic method is not linked
directly (the engine must produce a synthetic one later). -/
def lookupMethodInKlasses (env : Env) (klass : Klass) (name sig : Sym) : Option Method :=
  if klass.is_array then uncachedLookupMethod env klass.id name sig
  else
    match uncachedLookupMethod env klass.id name sig with
    | some m => if env.enable_invoke_dynamic ∧ m.is_sig_poly then none else some m
    | none => none

/-- `LinkResolver::lookup_polymorphic_method`: only considered for the
method-handle klass under invokedynamic; a signature-polymorphic intrinsic
is looked up in the process-wide intrinsic table, an invoker additionally
requires an appendix slot from the caller. -/
def lookupPolymorphicMethod (env : Env) (klass : Klass) (name sig : Sym)
    (currentId : Nat) (wantAppendix : Bool) :
    Option (Method × Option Nat × Option Nat) :=
  if env.enable_invoke_dynamic ∧ klass.id = env.method_handle_id then
    match env.poly_name_kind name with
    | some .intrinsic_kind => (env.find_intrinsic name sig).map (fun m => (m, none, none))
    | some .invoker_kind => if wantAppendix then env.find_invoker name sig currentId else none
    | none => none
  else none

/-- Modelled from the spec: `instanceKlass::find_field` (JVM spec 5.4.3.2):
own declared fields first, then direct superinterfaces recursively (in
declaration order), else the superclass; returns the klass where the
field was declared. -/
def findFieldFrom (env : Env) (name sig : Sym) : Nat → Nat → Option (Nat × Fld)
  | 0, _ => none
  | fuel + 1, i =>
    match env.getKlass i with
    | none => none
    | some k =>
      match k.fields.find?
          (fun f => decide (f.name = name ∧ f.signature = sig)) with
      | some f => some (i, f)
      | none =>
        match k.direct_interfaces.foldr
            (fun j acc =>
              match findFieldFrom env name sig fuel j with
              | some r => some r
              | none => acc) none with
        | some r => some r
        | none =>
          match k.super_id with
          | some s => findFieldFrom env name sig fuel s
          | none => none

/-- Whether klasses `a` and `b` are in the same runtime package: same
package name and same defining loader. -/
def sameRuntimePackage (env : Env) (a b : Nat) : Bool :=
  match env.getKlass a, env.getKlass b with
  | some ka, some kb => decide (ka.pkg = kb.pkg ∧ ka.loader = kb.loader)
  | _, _ => false

/-- Modelled from the spec: `Reflection::verify_field_access` deciding
whether referring klass `refK` may use a member with the given flags,
declared in `declK` and selected via `resolvedK`: public is always
permitted; private only within the declaring klass; protected needs the
same runtime package or a subtype relation to the declaring klass, and for
instance members the resolved klass must coincide with or be a supertype
of the referring klass; package-private needs the same runtime package. -/
def verifyMemberAccess (env : Env) (refK resolvedK declK : Nat)
    (is_pub is_prot is_priv is_stat : Bool) : Bool :=
  if is_pub then true
  else if is_priv then decide (refK = declK)
  else if is_prot then
    (sameRuntimePackage env refK declK || isSubtypeOf env refK declK) &&
    (is_stat || decide (resolvedK = refK) || isSubtypeOf env refK resolvedK)
  else sameRuntimePackage env refK declK

/-- `LinkResolver::check_method_accessability`: arrays always override
`clone` (JVMS 2.15) — when the resolved klass is an array, the declaring
klass is `java.lang.Object` and the method is named `clone`, the flags are
changed from protected to public before the access decision. -/
def checkMethodAccessability (env : Env) (refK resolvedK selK : Nat)
    (m : Method) : Except Throwable Unit :=
  if m.name = env.clone_name ∧ selK = env.object_id ∧
      klassIsArray env resolvedK then
    if verifyMemberAccess env refK resolvedK selK true false
        m.is_private m.is_static
    then .ok ()
    else .error (.simple .illegal_access)
  else
    if verifyMemberAccess env refK resolvedK selK m.is_public m.is_protected
        m.is_private m.is_static
    then .ok ()
    else .error (.simple .illegal_access)

/-- `LinkResolver::check_field_accessability`. -/
def checkFieldAccessability (env : Env) (refK resolvedK selK : Nat)
    (fd : Fld) : Except Throwable Unit :=
  if verifyMemberAccess env refK resolvedK selK fd.is_public fd.is_protected
      fd.is_private fd.is_static
  then .ok ()
  else .error (.simple .illegal_access)

/-- Modelled from the spec: `SystemDictionary::check_signature_loaders`
returns the first type name of the signature that the two loaders resolve
to two different concrete types (`none` when no such conflict exists). -/
def checkSignatureLoaders (env : Env) (sig : Sym) (l1 l2 : Nat) : Option Nat :=
  (env.sig_types sig).find? (fun t =>
    match env.loader_lookup l1 t, env.loader_lookup l2 t with
    | some a, some b => decide (a ≠ b)
    | _, _ => false)

/-- `LinkResolver::check_method_loader_constraints`: the referring klass's
loader and the declaring klass's loader must agree on every type of the
method signature, else a loader-constraint `LinkageError` is thrown. -/
def checkMethodLoaderConstraints (env : Env) (resolvedMethod : Method)
    (sig : Sym) (currentId : Nat) : Except Throwable Unit :=
  match checkSignatureLoaders env sig (klassLoader env currentId)
      (klassLoader env resolvedMethod.holder) with
  | some _ => .error (.simple .loader_constraint)
  | none => .ok ()

/-- `LinkResolver::check_field_loader_constraints`. -/
def checkFieldLoaderConstraints (env : Env) (refK selK : Nat) (sig : Sym) :
    Except Throwable Unit :=
  match checkSignatureLoaders env sig (klassLoader env refK)
      (klassLoader env selK) with
  | some _ => .error (.simple .loader_constraint)
  | none => .ok ()

/-- The resolved call: resolved and selected klass and method, the
dispatch index, and the optional appendix and method type of a handle
linkage; the payload of `CallInfo`. -/
structure CallInfo where
  resolved_klass : Nat
  selected_klass : Nat
  resolved_method : Method
  selected_method : Method
  vtable_index : Int
  resolved_appendix : Option Nat
  resolved_method_type : Option Nat
deriving Repr, DecidableEq

/-- `CallInfo::set_common`: record all components of the linkage result
(the compilation-policy hook of the original is outside this core). -/
def CallInfo.set_common (rk sk : Nat) (rm sm : Method) (vi : Int) : CallInfo :=
  { resolved_klass := rk
    selected_klass := sk
    resolved_method := rm
    selected_method := sm
    vtable_index := vi
    resolved_appendix := none
    resolved_method_type := none }

/-- `CallInfo::set_static`. -/
def CallInfo.set_static (rk : Nat) (rm : Method) : CallInfo :=
  CallInfo.set_common rk rk rm rm nonvirtual_vtable_index

/-- `CallInfo::set_interface`: only a resolved method coming from
`java.lang.Object` can carry a vtable index here. -/
def CallInfo.set_interface (env : Env) (rk sk : Nat) (rm sm : Method) : CallInfo :=
  let vi := if rm.holder = env.object_id then rm.vtable_index else invalid_vtable_index
  CallInfo.set_common rk sk rm sm vi

/-- `CallInfo::set_virtual`. -/
def CallInfo.set_virtual (rk sk : Nat) (rm sm : Method) (vi : Int) : CallInfo :=
  CallInfo.set_common rk sk rm sm vi

/-- `CallInfo::set_handle`: a null resolved method raises `InternalError`;
otherwise the method is both resolved and selected, with the appendix and
method type attached. -/
def CallInfo.set_handle (env : Env) (rm : Option Method)
    (app mt : Option Nat) : Except Throwable CallInfo :=
  match rm with
  | none => .error (.simple .internal_err)
  | some m =>
    .ok { CallInfo.set_common env.method_handle_id env.method_handle_id m m
            nonvirtual_vtable_index with
          resolved_appendix := app, resolved_method_type := mt }

/-- The staged lookup of `LinkResolver::resolve_method`: look up in the
resolved klass and its supers; only if that fails and the owner is not an
array, search the implemented interfaces and then attempt
signature-polymorphic lookup. -/
def methodLookupStages (env : Env) (resolvedKlass : Klass) (name sig : Sym)
    (currentId : Nat) : Option Method :=
  match lookupMethodInKlasses env resolvedKlass name sig with
  | some m => some m
  | none =>
    if resolvedKlass.is_array then none
    else
      match lookupMethodInAllInterfaces env resolvedKlass.id name sig with
      | some m => some m
      | none =>
        (lookupPolymorphicMethod env resolvedKlass name sig currentId false).map
          (fun r => r.1)

/-- `LinkResolver::resolve_method` (JVM spec 5.4.3c): reject an interface
owner; run the staged lookup; a fully failed lookup raises
`NoSuchMethodError`; an abstract method of a concrete klass raises
`AbstractMethodError`; finally the access check and the loader-constraint
check run when access checking is requested. -/
def resolve_method (env : Env) (resolvedKlass : Klass) (name sig : Sym)
    (currentKlass : Klass) (checkAccess : Bool) : Except Throwable Method :=
  if resolvedKlass.is_interface then .error (.simple .incompatible_class_change)
  else
    match methodLookupStages env resolvedKlass name sig currentKlass.id with
    | none => .error (.simple .no_such_method)
    | some m =>
      if m.is_abstract ∧ ¬ resolvedKlass.is_abstract then
        .error (.simple .abstract_method)
      else if checkAccess then
        match checkMethodAccessability env currentKlass.id resolvedKlass.id
            m.holder m with
        | .error e => .error e
        | .ok _ =>
          match checkMethodLoaderConstraints env m sig currentKlass.id with
          | .error e => .error e
          | .ok _ => .ok m
      else .ok m

/-- The staged lookup of `LinkResolver::resolve_interface_method`: look up
an instance method in the interface and its super (`Object`); only if that
fails and the owner is not an array, search the superinterfaces. -/
def interfaceLookupStages (env : Env) (resolvedKlass : Klass) (name sig : Sym) :
    Option Method :=
  match lookupInstanceMethodInKlasses env resolvedKlass.id name sig with
  | some m => some m
  | none =>
    if resolvedKlass.is_array then none
    else lookupMethodInAllInterfaces env resolvedKlass.id name sig

/-- `LinkResolver::resolve_interface_method`: reject a non-interface
owner; run the staged interface lookup; a failed lookup raises
`NoSuchMethodError`; the loader-constraint check runs when access checking
is requested. -/
def resolve_interface_method (env : Env) (resolvedKlass : Klass) (name sig : Sym)
    (currentKlass : Klass) (checkAccess : Bool) : Except Throwable Method :=
  if ¬ resolvedKlass.is_interface then .error (.simple .incompatible_class_change)
  else
    match interfaceLookupStages env resolvedKlass name sig with
    | none => .error (.simple .no_such_method)
    | some m =>
      if checkAccess then
        match checkMethodLoaderConstraints env m sig currentKlass.id with
        | .error e => .error e
        | .ok _ => .ok m
      else .ok m

/-- Whether a klass still needs initialization
(`instanceKlass::should_be_initialized`). -/
def shouldBeInit (env : Env) (i : Nat) : Bool :=
  ¬ env.init_state.contains i

/-- Modelled from the spec: triggering type initialization
(`instanceKlass::initialize`); a failed initialization is an error state
that is re-raised, a successful one marks the klass initialized. -/
def initKlass (env : Env) (i : Nat) : Except Throwable Env :=
  if env.init_failure i then .error (.simple .init_fail)
  else if env.init_state.contains i then .ok env
  else .ok { env with init_state := i :: env.init_state }

/-- `LinkResolver::linktime_resolve_static_method`: normal method
resolution followed by the static-kind check. -/
def linktime_resolve_static_method (env : Env) (resolvedKlass : Klass)
    (name sig : Sym) (currentKlass : Klass) (checkAccess : Bool) :
    Except Throwable Method :=
  match resolve_method env resolvedKlass name sig currentKlass checkAccess with
  | .error e => .error e
  | .ok m =>
    if ¬ m.is_static then .error (.simple .incompatible_class_change)
    else .ok m

/-- Initialization step of `resolve_static_call`: when requested and
needed the holder is initialized, the method is re-resolved afterwards,
and the result is recorded against the holder klass. -/
def resolve_static_call_init (env : Env) (holderK : Klass) (name sig : Sym)
    (currentKlass : Klass) (checkAccess initClass : Bool) (m : Method) :
    Except Throwable (CallInfo × Env) :=
  if initClass ∧ shouldBeInit env holderK.id then
    match initKlass env holderK.id with
    | .error e => .error e
    | .ok env' =>
      match linktime_resolve_static_method env' holderK name sig
          currentKlass checkAccess with
      | .error e => .error e
      | .ok m' => .ok (CallInfo.set_static holderK.id m', env')
  else .ok (CallInfo.set_static holderK.id m, env)

/-- `LinkResolver::resolve_static_call`: linktime resolution, then the
resolved klass becomes the method holder, which is initialized when
requested and needed. -/
def resolve_static_call (env : Env) (resolvedKlass : Klass) (name sig : Sym)
    (currentKlass : Klass) (checkAccess initClass : Bool) :
    Except Throwable (CallInfo × Env) :=
  match linktime_resolve_static_method env resolvedKlass name sig currentKlass
      checkAccess with
  | .error e => .error e
  | .ok m =>
    match env.getKlass m.holder with
    | none => .error (.simple .internal_err)
    | some holderK =>
      resolve_static_call_init env holderK name sig currentKlass checkAccess
        initClass m

/-- `LinkResolver::linktime_resolve_special_method`: normal method
resolution, then a constructor must be found in the static type itself,
and the method must not be static. -/
def linktime_resolve_special_method (env : Env) (resolvedKlass : Klass)
    (name sig : Sym) (currentKlass : Klass) (checkAccess : Bool) :
    Except Throwable Method :=
  match resolve_method env resolvedKlass name sig currentKlass checkAccess with
  | .error e => .error e
  | .ok m =>
    if m.name = env.ctor_name ∧ m.holder ≠ resolvedKlass.id then
      .error (.simple .no_such_method)
    else if m.is_static then .error (.simple .incompatible_class_change)
    else .ok m

/-- The old-style super-call test of `runtime_resolve_special_method`:
access checking on, `ACC_SUPER` set or non-virtual calls disallowed, the
method holder a strict supertype of the caller, and the method not a
constructor. -/
def specialNeedsSuper (env : Env) (resolvedMethod : Method)
    (currentKlass : Klass) (checkAccess : Bool) : Bool :=
  checkAccess &&
  (currentKlass.acc_super || ¬ env.allow_non_virtual_calls) &&
  (isSubtypeOf env currentKlass.id resolvedMethod.holder &&
    decide (currentKlass.id ≠ resolvedMethod.holder)) &&
  decide (resolvedMethod.name ≠ env.ctor_name)

/-- The super re-lookup of an old-style super call: search an instance
method from the caller's immediate superclass; a missing result raises
`AbstractMethodError`, a changed result re-checks loader constraints. -/
def specialSuperSel (env : Env) (resolvedMethod : Method)
    (currentKlass : Klass) : Except Throwable Method :=
  match currentKlass.super_id with
  | none => .error (.simple .abstract_method)
  | some s =>
    match lookupInstanceMethodInKlasses env s resolvedMethod.name
        resolvedMethod.signature with
    | none => .error (.simple .abstract_method)
    | some sel =>
      if sel ≠ resolvedMethod then
        match checkMethodLoaderConstraints env sel sel.signature
            currentKlass.id with
        | .error e => .error e
        | .ok _ => .ok sel
      else .ok sel

/-- `LinkResolver::runtime_resolve_special_method`: detect an old-style
super call and re-run the lookup from the caller's immediate superclass;
the selected method must be non-static and non-abstract. -/
def runtime_resolve_special_method (env : Env) (resolvedMethod : Method)
    (resolvedKlass currentKlass : Klass) (checkAccess : Bool) :
    Except Throwable CallInfo :=
  match (if specialNeedsSuper env resolvedMethod currentKlass checkAccess then
      specialSuperSel env resolvedMethod currentKlass
    else .ok resolvedMethod) with
  | .error e => .error e
  | .ok sel =>
    if sel.is_static then .error (.simple .incompatible_class_change)
    else if sel.is_abstract then .error (.simple .abstract_method)
    else .ok (CallInfo.set_static resolvedKlass.id sel)

/-- `LinkResolver::resolve_special_call`. -/
def resolve_special_call (env : Env) (resolvedKlass : Klass) (name sig : Sym)
    (currentKlass : Klass) (checkAccess : Bool) : Except Throwable CallInfo :=
  match linktime_resolve_special_method env resolvedKlass name sig currentKlass
      checkAccess with
  | .error e => .error e
  | .ok m =>
    runtime_resolve_special_method env m resolvedKlass currentKlass checkAccess

/-- `LinkResolver::linktime_resolve_virtual_method`: normal method
resolution followed by the non-static check. -/
def linktime_resolve_virtual_method (env : Env) (resolvedKlass : Klass)
    (name sig : Sym) (currentKlass : Klass) (checkAccess : Bool) :
    Except Throwable Method :=
  match resolve_method env resolvedKlass name sig currentKlass checkAccess with
  | .error e => .error e
  | .ok m =>
    if m.is_static then .error (.simple .incompatible_class_change)
    else .ok m

/-- The receiver-based selection of `runtime_resolve_virtual_method`: a
resolved method held by an interface is a miranda method, whose slot is
found by name-and-signature search and read from the receiver's vtable;
otherwise the nonvirtual index selects the resolved method itself, and
any other vtable index of the resolved method is read from the
receiver's vtable. -/
def virtualSelect (env : Env) (resolvedMethod : Method)
    (resolvedKlass recvKlass : Klass) : Int × Option Method :=
  if klassIsInterface env resolvedMethod.holder then
    let vi := indexOfMiranda env resolvedKlass.id resolvedMethod.name
      resolvedMethod.signature
    (vi, methodAtVtable env recvKlass.id vi)
  else if resolvedMethod.vtable_index = nonvirtual_vtable_index then
    (resolvedMethod.vtable_index, some resolvedMethod)
  else
    (resolvedMethod.vtable_index,
      methodAtVtable env recvKlass.id resolvedMethod.vtable_index)

/-- `LinkResolver::runtime_resolve_virtual_method`: null-receiver check
when runtime checks are requested; then the vtable selection; a missing
selection raises `AbstractMethodError`, and so does an abstract selection
under runtime checks. -/
def runtime_resolve_virtual_method (env : Env) (resolvedMethod : Method)
    (resolvedKlass : Klass) (recvNull : Bool) (recvKlass : Klass)
    (checkNullAndAbstract : Bool) : Except Throwable CallInfo :=
  if checkNullAndAbstract ∧ recvNull then .error (.simple .null_pointer)
  else
    match virtualSelect env resolvedMethod resolvedKlass recvKlass with
    | (_, none) => .error (.simple .abstract_method)
    | (vi, some sel) =>
      if checkNullAndAbstract ∧ sel.is_abstract then
        .error (.simple .abstract_method)
      else
        .ok (CallInfo.set_virtual resolvedKlass.id recvKlass.id resolvedMethod
          sel vi)

/-- `LinkResolver::resolve_virtual_call`. -/
def resolve_virtual_call (env : Env) (recvNull : Bool)
    (recvKlass resolvedKlass : Klass) (name sig : Sym) (currentKlass : Klass)
    (checkAccess checkNullAndAbstract : Bool) : Except Throwable CallInfo :=
  match linktime_resolve_virtual_method env resolvedKlass name sig currentKlass
      checkAccess with
  | .error e => .error e
  | .ok m =>
    runtime_resolve_virtual_method env m resolvedKlass recvNull recvKlass
      checkNullAndAbstract

/-- `LinkResolver::linktime_resolve_interface_method`. -/
def linktime_resolve_interface_method (env : Env) (resolvedKlass : Klass)
    (name sig : Sym) (currentKlass : Klass) (checkAccess : Bool) :
    Except Throwable Method :=
  resolve_interface_method env resolvedKlass name sig currentKlass checkAccess

/-- `LinkResolver::runtime_resolve_interface_method`: null-receiver check
when runtime checks are requested; the receiver klass must implement the
resolved interface, else `IncompatibleClassChangeError`; the implementing
method is looked up in the receiver's class hierarchy; a missing result
raises `AbstractMethodError`, a non-public result `IllegalAccessError`,
and an abstract result under runtime checks `AbstractMethodError`. -/
def runtime_resolve_interface_method (env : Env) (resolvedMethod : Method)
    (resolvedKlass : Klass) (recvNull : Bool) (recvKlass : Klass)
    (checkNullAndAbstract : Bool) : Except Throwable CallInfo :=
  if checkNullAndAbstract ∧ recvNull then .error (.simple .null_pointer)
  else if ¬ isSubtypeOf env recvKlass.id resolvedKlass.id then
    .error (.simple .incompatible_class_change)
  else
    match lookupInstanceMethodInKlasses env recvKlass.id resolvedMethod.name
        resolvedMethod.signature with
    | none => .error (.simple .abstract_method)
    | some sel =>
      if ¬ sel.is_public then .error (.simple .illegal_access)
      else if checkNullAndAbstract ∧ sel.is_abstract then
        .error (.simple .abstract_method)
      else
        .ok (CallInfo.set_interface env resolvedKlass.id recvKlass.id
          resolvedMethod sel)

/-- `LinkResolver::resolve_interface_call`. -/
def resolve_interface_call (env : Env) (recvNull : Bool)
    (recvKlass resolvedKlass : Klass) (name sig : Sym) (currentKlass : Klass)
    (checkAccess checkNullAndAbstract : Bool) : Except Throwable CallInfo :=
  match linktime_resolve_interface_method env resolvedKlass name sig
      currentKlass checkAccess with
  | .error e => .error e
  | .ok m =>
    runtime_resolve_interface_method env m resolvedKlass recvNull recvKlass
      checkNullAndAbstract

/-- `LinkResolver::resolve_handle_call`: signature-polymorphic lookup; for
an intrinsic found under access checking, the access check runs against
the referring klass; the result is recorded as a handle linkage. -/
def resolve_handle_call (env : Env) (resolvedKlass : Klass) (name sig : Sym)
    (currentKlass : Klass) (checkAccess : Bool) : Except Throwable CallInfo :=
  match lookupPolymorphicMethod env resolvedKlass name sig currentKlass.id true with
  | none => CallInfo.set_handle env none none none
  | some (m, app, mt) =>
    if checkAccess ∧ env.poly_name_kind name = some .intrinsic_kind then
      match checkMethodAccessability env currentKlass.id resolvedKlass.id
          m.holder m with
      | .error e => .error e
      | .ok _ => CallInfo.set_handle env (some m) app mt
    else CallInfo.set_handle env (some m) app mt

/-- Error translation of `LinkResolver::resolve_dynamic_call`: an error
that is already a `BootstrapMethodError` propagates unchanged, a
non-`LinkageError` propagates unchanged, and any other `LinkageError` is
wrapped as a `BootstrapMethodError` preserving the original as cause. -/
def dynamicErrorTranslate (e : Throwable) : Throwable :=
  if e.kind.is_bootstrap_method_error then e
  else if ¬ e.kind.is_linkage_error then e
  else .wrapped .bootstrap_method e

/-- `LinkResolver::resolve_dynamic_call` proper: invoke the bootstrap
collaborator, translating an error as above; a successful result is
recorded as a handle linkage. -/
def resolve_dynamic_call (env : Env) (bootstrapSpecifier : Nat)
    (name sig : Sym) (currentKlass : Klass) : Except Throwable CallInfo :=
  match env.find_dynamic_invoker currentKlass.id bootstrapSpecifier name sig with
  | .error e => .error (dynamicErrorTranslate e)
  | .ok (m, app, mt) => CallInfo.set_handle env m app mt

/-- A resolution request, as dispatched by `LinkResolver::resolve_invoke`
for the six invocation kinds (constant-pool extraction already done). -/
inductive Req where
  | staticCall (resolvedKlass : Klass) (name sig : Sym) (currentKlass : Klass)
      (checkAccess initClass : Bool)
  | specialCall (resolvedKlass : Klass) (name sig : Sym) (currentKlass : Klass)
      (checkAccess : Bool)
  | virtualCall (recvNull : Bool) (recvKlass resolvedKlass : Klass)
      (name sig : Sym) (currentKlass : Klass) (checkAccess checkNA : Bool)
  | interfaceCall (recvNull : Bool) (recvKlass resolvedKlass : Klass)
      (name sig : Sym) (currentKlass : Klass) (checkAccess checkNA : Bool)
  | handleCall (resolvedKlass : Klass) (name sig : Sym) (currentKlass : Klass)
      (checkAccess : Bool)
  | dynamicCall (bootstrapSpecifier : Nat) (name sig : Sym) (currentKlass : Klass)

/-- `LinkResolver::resolve_invoke`: dispatch a resolution request to the
matching resolver; only the static path can change initialization state. -/
def resolve_invoke (env : Env) : Req → Except Throwable (CallInfo × Env)
  | .staticCall rk n s ck ca init => resolve_static_call env rk n s ck ca init
  | .specialCall rk n s ck ca =>
    (resolve_special_call env rk n s ck ca).map (fun ci => (ci, env))
  | .virtualCall rn rv rk n s ck ca cna =>
    (resolve_virtual_call env rn rv rk n s ck ca cna).map (fun ci => (ci, env))
  | .interfaceCall rn rv rk n s ck ca cna =>
    (resolve_interface_call env rn rv rk n s ck ca cna).map (fun ci => (ci, env))
  | .handleCall rk n s ck ca =>
    (resolve_handle_call env rk n s ck ca).map (fun ci => (ci, env))
  | .dynamicCall bsm n s ck =>
    (resolve_dynamic_call env bsm n s ck).map (fun ci => (ci, env))

/-- The four field-access bytecodes accepted by field resolution. -/
inductive FieldByte where
  | getstatic
  | putstatic
  | getfield
  | putfield
deriving Repr, DecidableEq

/-- Information recorded for a successfully resolved field
(`FieldAccessInfo::set`). -/
structure FieldAccessInfo where
  klass : Nat
  name : Sym
  field_index : Nat
  field_offset : Nat
  acc_static : Bool
  acc_final : Bool
  acc_public : Bool
  acc_protected : Bool
  acc_private : Bool
deriving Repr, DecidableEq

/-- Whether the field bytecode is a static access (`is_static`). -/
def fieldIsStaticByte : FieldByte → Bool
  | .getstatic => true
  | .putstatic => true
  | _ => false

/-- Whether the field bytecode is a put-category access (`is_put`). -/
def fieldIsPutByte : FieldByte → Bool
  | .putfield => true
  | .putstatic => true
  | _ => false

/-- The information `FieldAccessInfo::set` records for a field declared
by the given klass. -/
def fieldInfoOf (selK : Nat) (fd : Fld) : FieldAccessInfo :=
  { klass := selK, name := fd.name, field_index := fd.index,
    field_offset := fd.offset, acc_static := fd.is_static,
    acc_final := fd.is_final, acc_public := fd.is_public,
    acc_protected := fd.is_protected, acc_private := fd.is_private }

/-- Loader-constraint and result step of `resolve_field`, after
initialization produced the (possibly updated) environment. -/
def resolve_field_finish (env' : Env) (refId selK : Nat) (sig : Sym)
    (fd : Fld) : Except Throwable (FieldAccessInfo × Env) :=
  match checkFieldLoaderConstraints env' refId selK sig with
  | .error e => .error e
  | .ok _ => .ok (fieldInfoOf selK fd, env')

/-- Checks of `resolve_field` once the field has been found: access, the
static-kind match, the final-store restriction, initialization of the
declaring klass for static accesses outside check-only mode, and the
loader constraints. -/
def resolve_field_checked (env : Env) (rk : Klass) (refId : Nat) (sig : Sym)
    (byte : FieldByte) (checkOnly : Bool) (selK : Nat) (fd : Fld) :
    Except Throwable (FieldAccessInfo × Env) :=
  match checkFieldAccessability env refId rk.id selK fd with
  | .error e => .error e
  | .ok _ =>
    if fieldIsStaticByte byte ≠ fd.is_static then
      .error (.simple .incompatible_class_change)
    else if fieldIsPutByte byte ∧ fd.is_final ∧ selK ≠ refId then
      .error (.simple .illegal_access)
    else
      match (if fieldIsStaticByte byte ∧ ¬ checkOnly
          then initKlass env selK else .ok env) with
      | .error e => .error e
      | .ok env' => resolve_field_finish env' refId selK sig fd

/-- Field search step of `resolve_field` for a present resolved klass. -/
def resolve_field_known (env : Env) (rk : Klass) (name sig : Sym)
    (refKlass : Klass) (byte : FieldByte) (checkOnly : Bool) :
    Except Throwable (FieldAccessInfo × Env) :=
  match findFieldFrom env name sig (env.klasses.length + 1) rk.id with
  | none => .error (.simple .no_such_field)
  | some (selK, fd) =>
    resolve_field_checked env rk refKlass.id sig byte checkOnly selK fd

/-- `LinkResolver::resolve_field`: field search from the resolved klass
(JVM spec 5.4.3.2); then the access check; the static kind must match the
bytecode; a final field may only be stored to from its own declaring
klass; a static access outside check-only mode initializes the declaring
klass; finally the field loader constraints are enforced. -/
def resolve_field (env : Env) (resolvedKlass : Option Klass) (name sig : Sym)
    (refKlass : Klass) (byte : FieldByte) (checkOnly : Bool) :
    Except Throwable (FieldAccessInfo × Env) :=
  match resolvedKlass with
  | none => .error (.simple .no_such_field)
  | some rk => resolve_field_known env rk name sig refKlass byte checkOnly

/-! Well-formedness of the type-registry environment: the properties the
registry guarantees about the arena and the dispatch tables it builds at
type-finalization time (the engine only reads them). -/

/-- Pointwise name-and-signature agreement of two vtables on their common
prefix: a subtype's vtable extends and overrides, slot by slot, the
vtables of its supertypes. -/
def slotPairOK : List Method → List Method → Bool
  | m1 :: r1, m2 :: r2 =>
    decide (m2.name = m1.name ∧ m2.signature = m1.signature) && slotPairOK r1 r2
  | _, _ => true

/-- Arena ids are self-consistent: fetching a klass by its id returns it. -/
def idsSelfB (env : Env) : Bool :=
  env.klasses.all (fun k => decide (env.getKlass k.id = some k))

/-- Every declared method records its declaring klass as holder. -/
def holderOKB (env : Env) : Bool :=
  env.klasses.all (fun k => k.methods.all (fun m => decide (m.holder = k.id)))

/-- Vtables of subtype-related klasses agree slot by slot. -/
def slotCoherentB (env : Env) : Bool :=
  env.klasses.all (fun k1 => env.klasses.all (fun k2 =>
    !(isSubtypeOf env k2.id k1.id) || slotPairOK k1.vtable k2.vtable))

/-- A declared method with an assigned vtable index occupies a matching
slot of its own klass's vtable. -/
def vidxSelfB (env : Env) : Bool :=
  env.klasses.all (fun k => k.methods.all (fun m =>
    if (0 : Int) ≤ m.vtable_index then
      match nth k.vtable m.vtable_index.toNat with
      | some m' => decide (m'.name = m.name ∧ m'.signature = m.signature)
      | none => false
    else true))

/-- The subtype relation is transitive across the arena. -/
def subTransB (env : Env) : Bool :=
  env.klasses.all (fun a => env.klasses.all (fun b => env.klasses.all (fun c =>
    !(isSubtypeOf env a.id b.id && isSubtypeOf env b.id c.id) ||
    isSubtypeOf env a.id c.id)))

/-- Well-formed environment: the finite registry invariants plus the
contract that synthetic signature-polymorphic intrinsics are statically
bound (never placed in a vtable). -/
structure EnvWF (env : Env) : Prop where
  ids_self : idsSelfB env = true
  holder_ok : holderOKB env = true
  slot_coherent : slotCoherentB env = true
  vidx_self : vidxSelfB env = true
  sub_trans : subTransB env = true
  intrinsic_nonvirtual : ∀ n s m, env.find_intrinsic n s = some m →
    m.vtable_index = nonvirtual_vtable_index

/-! Concrete registry data: small environments used to evaluate the
resolution engine on closed inputs. -/

/-- A public instance method entry with the given descriptor and holder. -/
def mkMethod (name sig holder : Nat) (vidx : Int) : Method :=
  { name := name, signature := sig, holder := holder, is_static := false,
    is_abstract := false, is_public := true, is_protected := false,
    is_private := false, is_final := false, vtable_index := vidx,
    is_sig_poly := false }

/-- A plain public class record with the given id and superclass. -/
def mkKlass (id : Nat) (superI : Option Nat) : Klass :=
  { id := id, super_id := superI, is_interface := false, is_array := false,
    is_abstract := false, acc_super := false, loader := 0, pkg := 0,
    methods := [], fields := [], direct_interfaces := [],
    transitive_interfaces := [], vtable := [] }

/-- An environment with an empty arena and inert collaborators. -/
def baseEnv : Env :=
  { klasses := [], object_id := 0, method_handle_id := 99, clone_name := 5,
    ctor_name := 6, enable_invoke_dynamic := true,
    allow_non_virtual_calls := true, init_state := [],
    init_failure := fun _ => false, sig_types := fun _ => [],
    loader_lookup := fun _ _ => none, poly_name_kind := fun _ => none,
    find_intrinsic := fun _ _ => none, find_invoker := fun _ _ _ => none,
    find_dynamic_invoker := fun _ _ _ _ => .error (.simple (.other 0)) }

/-- Method `area()V` as declared by the root of a small hierarchy. -/
def mAreaBase : Method := mkMethod 10 20 1 0

/-- The override of `area()V` in the subclass. -/
def mAreaCircle : Method := mkMethod 10 20 2 0

/-- The root `Object`-like klass of the sample arena. -/
def objectW : Klass := mkKlass 0 none

/-- Class `Base` declaring `area` at vtable slot 0. -/
def baseW : Klass :=
  { mkKlass 1 (some 0) with methods := [mAreaBase], vtable := [mAreaBase] }

/-- Class `Circle` extending `Base`, overriding `area` at slot 0. -/
def circleW : Klass :=
  { mkKlass 2 (some 1) with methods := [mAreaCircle], vtable := [mAreaCircle] }

/-- The sample environment for the virtual-dispatch scenario. -/
def envC1 : Env := { baseEnv with klasses := [objectW, baseW, circleW] }

/-- A virtual resolution request against `Base.area` with a `Circle`
receiver. -/
def reqC1 : Req := .virtualCall false circleW baseW 10 20 circleW true true

/-- The call info the sample virtual resolution produces. -/
def ciC1 : CallInfo := CallInfo.set_virtual 1 2 mAreaBase mAreaCircle 0

/-- A method matching `area()V` declared by an unrelated interface. -/
def mExtraIface : Method := mkMethod 10 20 9 (-2)

/-- An interface declaring a method that matches the array scenario's
searched name and descriptor. -/
def ifaceW : Klass :=
  { mkKlass 9 none with is_interface := true, methods := [mExtraIface] }

/-- An array klass that (per the registry) transitively lists the
interface, used to show the interface search is skipped for arrays. -/
def arrW : Klass :=
  { mkKlass 3 (some 0) with is_array := true, transitive_interfaces := [9] }

/-- Environment of the array-owner lookup scenario. -/
def envC3 : Env := { baseEnv with klasses := [objectW, arrW, ifaceW] }

/-- The abstract interface method of the interface-call scenario. -/
def mIDecl : Method := { mkMethod 11 21 30 (-4) with is_abstract := true }

/-- The non-public implementation found in the receiver's hierarchy. -/
def mImplPriv : Method :=
  { mkMethod 11 21 32 0 with is_public := false, is_private := true }

/-- The resolved interface of the interface-call scenario. -/
def ifaceI : Klass :=
  { mkKlass 30 none with is_interface := true, methods := [mIDecl] }

/-- A class that does not implement the resolved interface. -/
def dPlain : Klass := mkKlass 31 (some 0)

/-- A class implementing the interface with a non-public method. -/
def cImpl : Klass :=
  { mkKlass 32 (some 0) with
    transitive_interfaces := [30]
    methods := [mImplPriv]
    vtable := [mImplPriv] }

/-- Environment of the interface-call scenario. -/
def envC4 : Env := { baseEnv with klasses := [objectW, ifaceI, dPlain, cImpl] }

/-- A static method of the static-call scenario. -/
def mStat : Method := { mkMethod 50 51 40 (-2) with is_static := true }

/-- The klass declaring the static method. -/
def statK : Klass := { mkKlass 40 (some 0) with methods := [mStat] }

/-- Environment of the static-call scenario (nothing initialized yet). -/
def envC5 : Env := { baseEnv with klasses := [objectW, statK] }

/-- The static-call scenario's environment after the holder initialized. -/
def envC5' : Env := { envC5 with init_state := [40] }

/-- A concrete public method declared by the root klass, target of an
explicit super call. -/
def mSuperImpl : Method := mkMethod 60 61 0 0

/-- Root klass of the super-call scenario, declaring the method. -/
def objK6 : Klass :=
  { mkKlass 0 none with methods := [mSuperImpl], vtable := [mSuperImpl] }

/-- The caller klass, carrying the `ACC_SUPER` marker. -/
def pK : Klass := { mkKlass 70 (some 0) with acc_super := true }

/-- Environment of the super-call scenario. -/
def envC6 : Env := { baseEnv with klasses := [objK6, pK] }

/-- A linkage-category bootstrap collaborator error that is not already
a bootstrap error. -/
def errL : Throwable := .simple (.other_linkage 3)

/-- Environment whose bootstrap collaborator fails with that error. -/
def envC7 : Env :=
  { baseEnv with find_dynamic_invoker := fun _ _ _ _ => .error errL }

/-- A method whose signature mentions the loader-conflicting type. -/
def mConf : Method := mkMethod 81 30 80 (-2)

/-- A field whose type signature is the loader-conflicting one. -/
def fConf : Fld :=
  { name := 83, signature := 30, is_static := false, is_final := false,
    is_public := true, is_protected := false, is_private := false,
    index := 0, offset := 4 }

/-- The declaring klass of the conflict scenario, defined by loader 1. -/
def kHold : Klass :=
  { mkKlass 80 none with
    loader := 1
    methods := [mConf]
    fields := [fConf] }

/-- The referring klass of the conflict scenario, defined by loader 0. -/
def kCur : Klass := mkKlass 82 none

/-- Environment whose two loaders resolve type 7 (mentioned by signature
symbol 30) to two different concrete types. -/
def envC8 : Env :=
  { baseEnv with
    klasses := [kHold, kCur]
    sig_types := fun s => if s = 30 then [7] else []
    loader_lookup := fun l t =>
      if t = 7 then (if l = 0 then some 100 else some 101) else none }

/-- A protected `clone`-named method declared by the root klass. -/
def mClone : Method :=
  { mkMethod 5 22 0 (-2) with is_public := false, is_protected := true }

/-- A final public instance field of the final-store scenario. -/
def fFin : Fld :=
  { name := 40, signature := 41, is_static := true, is_final := true,
    is_public := true, is_protected := false, is_private := false,
    index := 0, offset := 8 }

/-- A final public instance (non-static) field of the same scenario. -/
def fFinI : Fld :=
  { fFin with name := 42, is_static := false, index := 1, offset := 12 }

/-- The klass declaring the final fields. -/
def gK : Klass := { mkKlass 90 none with fields := [fFin, fFinI] }

/-- A distinct referring klass for the final-store scenario. -/
def hK : Klass := mkKlass 91 none

/-- Environment of the final-store scenario. -/
def envC10 : Env := { baseEnv with klasses := [gK, hK] }

/-! Inversion lemmas for the list helpers. -/

lemma firstSome_eq_some {α β : Type} {f : α → Option β} {l : List α} {b : β}
    (h : firstSome f l = some b) : ∃ a ∈ l, f a = some b := by
  induction l with
  | nil => simp [firstSome] at h
  | cons a rest ih =>
    rw [firstSome] at h
    cases hfa : f a with
    | some b' =>
      rw [hfa] at h
      exact ⟨a, List.mem_cons_self a rest, by simpa using hfa.trans (by simpa using h)⟩
    | none =>
      rw [hfa] at h
      obtain ⟨a', ha', hfa'⟩ := ih h
      exact ⟨a', List.mem_cons_of_mem a ha', hfa'⟩

lemma nth_mem {α : Type} {l : List α} {i : Nat} {a : α}
    (h : nth l i = some a) : a ∈ l := by
  induction l generalizing i with
  | nil => simp [nth] at h
  | cons x rest ih =>
    cases i with
    | zero =>
      rw [nth] at h
      exact (Option.some_inj.mp h) ▸ List.mem_cons_self x rest
    | succ j =>
      rw [nth] at h
      exact List.mem_cons_of_mem x (ih h)

lemma vtSearch_spec {name sig : Sym} {l : List Method} {j : Nat}
    (h : vtSearch name sig l = some j) :
    ∃ m, nth l j = some m ∧ m.name = name ∧ m.signature = sig := by
  induction l generalizing j with
  | nil => simp [vtSearch] at h
  | cons m rest ih =>
    rw [vtSearch] at h
    by_cases hm : m.name = name ∧ m.signature = sig
    · rw [if_pos hm] at h
      cases Option.some_inj.mp h
      exact ⟨m, rfl, hm⟩
    · rw [if_neg hm] at h
      cases hrec : vtSearch name sig rest with
      | none => rw [hrec] at h; simp at h
      | some j' =>
        rw [hrec] at h
        simp only [Option.map_some'] at h
        cases Option.some_inj.mp h
        obtain ⟨m', hm', hprops⟩ := ih hrec
        exact ⟨m', hm', hprops⟩

lemma getKlass_spec {env : Env} {i : Nat} {k : Klass}
    (h : env.getKlass i = some k) : k ∈ env.klasses ∧ k.id = i := by
  refine ⟨List.mem_of_find?_eq_some h, ?_⟩
  have := List.find?_some h
  simpa using this

lemma findLocalMethod_spec {k : Klass} {name sig : Sym} {m : Method}
    (h : findLocalMethod k name sig = some m) :
    m ∈ k.methods ∧ m.name = name ∧ m.signature = sig := by
  refine ⟨List.mem_of_find?_eq_some h, ?_⟩
  have := List.find?_some h
  simpa using this

lemma superChainAux_mem {env : Env} {fuel : Nat} {o : Option Nat} {k : Klass}
    (h : k ∈ superChainAux env fuel o) : k ∈ env.klasses := by
  induction fuel generalizing o with
  | zero => simp [superChainAux] at h
  | succ f ih =>
    cases o with
    | none => simp [superChainAux] at h
    | some i =>
      rw [superChainAux] at h
      cases hk : env.getKlass i with
      | none => rw [hk] at h; simp at h
      | some k0 =>
        rw [hk] at h
        rcases List.mem_cons.mp h with h1 | h2
        · exact h1 ▸ (getKlass_spec hk).1
        · exact ih h2

lemma superChain_mem {env : Env} {i : Nat} {k : Klass}
    (h : k ∈ superChain env i) : k ∈ env.klasses :=
  superChainAux_mem h

lemma superChain_subtype {env : Env} {i : Nat} {k : Klass}
    (h : k ∈ superChain env i) : isSubtypeOf env i k.id = true := by
  unfold isSubtypeOf
  refine Bool.or_eq_true_iff.mpr (Or.inl ?_)
  exact List.any_eq_true.mpr ⟨k, h, by simp⟩

lemma superChainIds_subtype {env : Env} {i : Nat} {j : Nat}
    (h : j ∈ superChainIds env i) : isSubtypeOf env i j = true := by
  obtain ⟨k, hk, hkj⟩ := List.mem_map.mp h
  exact hkj ▸ superChain_subtype hk

lemma uncached_spec {env : Env} {i : Nat} {name sig : Sym} {m : Method}
    (h : uncachedLookupMethod env i name sig = some m) :
    ∃ k ∈ superChain env i, m ∈ k.methods ∧ m.name = name ∧ m.signature = sig := by
  obtain ⟨k, hk, hfm⟩ := firstSome_eq_some h
  obtain ⟨hmem, hprops⟩ := findLocalMethod_spec hfm
  exact ⟨k, hk, hmem, hprops⟩

lemma interfaces_spec {env : Env} {i : Nat} {name sig : Sym} {m : Method}
    (h : lookupMethodInAllInterfaces env i name sig = some m) :
    ∃ k0, env.getKlass i = some k0 ∧
      ∃ ik ∈ env.klasses, ik.id ∈ k0.transitive_interfaces ∧
        m ∈ ik.methods ∧ m.name = name ∧ m.signature = sig := by
  unfold lookupMethodInAllInterfaces at h
  cases hk0 : env.getKlass i with
  | none => rw [hk0] at h; simp at h
  | some k0 =>
    rw [hk0] at h
    obtain ⟨j, hj, hfj⟩ := firstSome_eq_some h
    cases hik : env.getKlass j with
    | none => rw [hik] at hfj; simp at hfj
    | some ik =>
      rw [hik] at hfj
      obtain ⟨hmem, hprops⟩ := findLocalMethod_spec hfj
      obtain ⟨hikmem, hikid⟩ := getKlass_spec hik
      exact ⟨k0, rfl, ik, hikmem, hikid ▸ hj, hmem, hprops⟩

lemma skipStaticsAux_matches {env : Env} {name sig : Sym} {fuel : Nat}
    {r : Option Method} {m : Method}
    (hr : ∀ m0, r = some m0 → m0.name = name ∧ m0.signature = sig)
    (h : skipStaticsAux env name sig fuel r = some m) :
    m.name = name ∧ m.signature = sig := by
  induction fuel generalizing r with
  | zero =>
    cases r with
    | none => simp [skipStaticsAux] at h
    | some m0 =>
      rw [skipStaticsAux] at h
      by_cases hs : m0.is_static
      · rw [if_pos hs] at h; simp at h
      · rw [if_neg hs] at h
        exact (Option.some_inj.mp h) ▸ hr m0 rfl
  | succ f ih =>
    cases r with
    | none => simp [skipStaticsAux] at h
    | some m0 =>
      rw [skipStaticsAux] at h
      by_cases hs : m0.is_static = true
      · rw [if_pos hs] at h
        cases hsup : (env.getKlass m0.holder).bind Klass.super_id with
        | none => rw [hsup] at h; simp at h
        | some s =>
          rw [hsup] at h
          refine ih (fun m1 hm1 => ?_) h
          obtain ⟨_, _, _, hprops⟩ := uncached_spec hm1
          exact hprops
      · rw [if_neg hs] at h
        exact (Option.some_inj.mp h) ▸ hr m0 rfl

lemma lookupInstance_matches {env : Env} {i : Nat} {name sig : Sym} {m : Method}
    (h : lookupInstanceMethodInKlasses env i name sig = some m) :
    m.name = name ∧ m.signature = sig := by
  refine skipStaticsAux_matches (fun m0 hm0 => ?_) h
  obtain ⟨_, _, _, hprops⟩ := uncached_spec hm0
  exact hprops

/-! Extraction of the pointwise facts from the finite well-formedness
checks. -/

lemma idsSelf_spec {env : Env} (h : idsSelfB env = true) :
    ∀ k ∈ env.klasses, env.getKlass k.id = some k := by
  intro k hk
  have := List.all_eq_true.mp h k hk
  exact of_decide_eq_true this

lemma holderOK_spec {env : Env} (h : holderOKB env = true) :
    ∀ k ∈ env.klasses, ∀ m ∈ k.methods, m.holder = k.id := by
  intro k hk m hm
  have h1 := List.all_eq_true.mp h k hk
  have h2 := List.all_eq_true.mp h1 m hm
  exact of_decide_eq_true h2

lemma slotPairOK_spec {v1 v2 : List Method} (h : slotPairOK v1 v2 = true)
    {i : Nat} {m1 m2 : Method}
    (h1 : nth v1 i = some m1) (h2 : nth v2 i = some m2) :
    m2.name = m1.name ∧ m2.signature = m1.signature := by
  induction v1 generalizing v2 i with
  | nil => simp [nth] at h1
  | cons x1 r1 ih =>
    cases v2 with
    | nil => simp [nth] at h2
    | cons x2 r2 =>
      rw [slotPairOK, Bool.and_eq_true] at h
      cases i with
      | zero =>
        rw [nth] at h1 h2
        cases Option.some_inj.mp h1
        cases Option.some_inj.mp h2
        exact of_decide_eq_true h.1
      | succ j =>
        rw [nth] at h1 h2
        exact ih h.2 h1 h2

lemma slotCoherent_spec {env : Env} (h : slotCoherentB env = true)
    {k1 k2 : Klass} (hk1 : k1 ∈ env.klasses) (hk2 : k2 ∈ env.klasses)
    (hsub : isSubtypeOf env k2.id k1.id = true) :
    slotPairOK k1.vtable k2.vtable = true := by
  have h1 := List.all_eq_true.mp h k1 hk1
  have h2 := List.all_eq_true.mp h1 k2 hk2
  rw [Bool.or_eq_true_iff] at h2
  rcases h2 with h2 | h2
  · rw [hsub] at h2; simp at h2
  · exact h2

lemma vidxSelf_spec {env : Env} (h : vidxSelfB env = true)
    {k : Klass} (hk : k ∈ env.klasses) {m : Method} (hm : m ∈ k.methods)
    (hvi : (0 : Int) ≤ m.vtable_index) :
    ∃ m', nth k.vtable m.vtable_index.toNat = some m' ∧
      m'.name = m.name ∧ m'.signature = m.signature := by
  have h1 := List.all_eq_true.mp h k hk
  have h2 := List.all_eq_true.mp h1 m hm
  rw [if_pos hvi] at h2
  cases hn : nth k.vtable m.vtable_index.toNat with
  | none => rw [hn] at h2; simp at h2
  | some m' =>
    rw [hn] at h2
    exact ⟨m', rfl, of_decide_eq_true h2⟩

lemma subTrans_spec {env : Env} (h : subTransB env = true)
    {a b c : Klass} (ha : a ∈ env.klasses) (hb : b ∈ env.klasses)
    (hc : c ∈ env.klasses)
    (hab : isSubtypeOf env a.id b.id = true)
    (hbc : isSubtypeOf env b.id c.id = true) :
    isSubtypeOf env a.id c.id = true := by
  have h1 := List.all_eq_true.mp h a ha
  have h2 := List.all_eq_true.mp h1 b hb
  have h3 := List.all_eq_true.mp h2 c hc
  rw [Bool.or_eq_true_iff] at h3
  rcases h3 with h3 | h3
  · rw [hab, hbc] at h3; simp at h3
  · exact h3

/-! Inversion lemmas for the resolution functions, used by the claim
theorems below. -/

lemma subtype_of_interface {env : Env} {rk : Klass}
    (hrk : env.getKlass rk.id = some rk) {j : Nat}
    (hj : j ∈ rk.transitive_interfaces) : isSubtypeOf env rk.id j = true := by
  unfold isSubtypeOf
  refine Bool.or_eq_true_iff.mpr (Or.inr ?_)
  rw [hrk]
  exact List.any_eq_true.mpr ⟨j, hj, by simp⟩

lemma lookupMK_spec {env : Env} {rk : Klass} {n s : Sym} {m : Method}
    (h : lookupMethodInKlasses env rk n s = some m) :
    uncachedLookupMethod env rk.id n s = some m := by
  unfold lookupMethodInKlasses at h
  split at h
  · exact h
  · cases hu : uncachedLookupMethod env rk.id n s with
    | none => rw [hu] at h; simp at h
    | some m0 =>
      rw [hu] at h
      change (if env.enable_invoke_dynamic ∧ m0.is_sig_poly then none
        else some m0) = some m at h
      split at h
      · simp at h
      · exact h

lemma lookupPoly_noAppendix {env : Env} {rk : Klass} {n s : Sym} {cid : Nat}
    {r : Method × Option Nat × Option Nat}
    (h : lookupPolymorphicMethod env rk n s cid false = some r) :
    env.find_intrinsic n s = some r.1 := by
  unfold lookupPolymorphicMethod at h
  split at h
  · cases hk : env.poly_name_kind n with
    | none => rw [hk] at h; simp at h
    | some pk =>
      rw [hk] at h
      cases pk with
      | intrinsic_kind =>
        obtain ⟨m, hm, hr⟩ := Option.map_eq_some'.mp h
        rw [hm, ← hr]
      | invoker_kind => simp at h
  · simp at h

lemma methodLookupStages_cases {env : Env} {rk : Klass} {n s : Sym}
    {cid : Nat} {m : Method}
    (h : methodLookupStages env rk n s cid = some m) :
    lookupMethodInKlasses env rk n s = some m ∨
    (lookupMethodInKlasses env rk n s = none ∧ rk.is_array = false ∧
      lookupMethodInAllInterfaces env rk.id n s = some m) ∨
    (lookupMethodInKlasses env rk n s = none ∧ rk.is_array = false ∧
      lookupMethodInAllInterfaces env rk.id n s = none ∧
      ∃ r, lookupPolymorphicMethod env rk n s cid false = some r ∧ r.1 = m) := by
  unfold methodLookupStages at h
  cases h1 : lookupMethodInKlasses env rk n s with
  | some m0 => rw [h1] at h; exact Or.inl h
  | none =>
    rw [h1] at h
    have h' : (if rk.is_array = true then (none : Option Method)
        else
          match lookupMethodInAllInterfaces env rk.id n s with
          | some m1 => some m1
          | none =>
            (lookupPolymorphicMethod env rk n s cid false).map
              (fun r => r.1)) = some m := h
    by_cases ha : rk.is_array = true
    · rw [if_pos ha] at h'; simp at h'
    · rw [if_neg ha] at h'
      have ha' : rk.is_array = false := by simpa using ha
      cases h2 : lookupMethodInAllInterfaces env rk.id n s with
      | some m1 => rw [h2] at h'; exact Or.inr (Or.inl ⟨rfl, ha', h'⟩)
      | none =>
        rw [h2] at h'
        have h'' : (lookupPolymorphicMethod env rk n s cid false).map
            (fun r => r.1) = some m := h'
        obtain ⟨r, hr, hr1⟩ := Option.map_eq_some'.mp h''
        exact Or.inr (Or.inr ⟨rfl, ha', rfl, r, hr, hr1⟩)

lemma resolve_method_ok_stages {env : Env} {rk : Klass} {n s : Sym}
    {ck : Klass} {ca : Bool} {m : Method}
    (h : resolve_method env rk n s ck ca = .ok m) :
    rk.is_interface = false ∧ methodLookupStages env rk n s ck.id = some m := by
  unfold resolve_method at h
  by_cases hi : rk.is_interface = true
  · rw [if_pos hi] at h; simp at h
  · rw [if_neg hi] at h
    refine ⟨by simpa using hi, ?_⟩
    cases hstage : methodLookupStages env rk n s ck.id with
    | none => rw [hstage] at h; simp at h
    | some m0 =>
      rw [hstage] at h
      have h' : (if m0.is_abstract ∧ ¬ rk.is_abstract then
            (Except.error (Throwable.simple ThrowKind.abstract_method) :
              Except Throwable Method)
          else if ca then
            match checkMethodAccessability env ck.id rk.id m0.holder m0 with
            | .error e => .error e
            | .ok _ =>
              match checkMethodLoaderConstraints env m0 s ck.id with
              | .error e => .error e
              | .ok _ => .ok m0
          else .ok m0) = .ok m := h
      split at h'
      · simp at h'
      · split at h'
        · cases hacc : checkMethodAccessability env ck.id rk.id m0.holder m0 with
          | error e => rw [hacc] at h'; simp at h'
          | ok u =>
            rw [hacc] at h'
            cases hlc : checkMethodLoaderConstraints env m0 s ck.id with
            | error e => rw [hlc] at h'; simp at h'
            | ok u2 =>
              rw [hlc] at h'
              have hmm : Except.ok (ε := Throwable) m0 = Except.ok m := h'
              have hms : m0 = m := by simpa using hmm
              rw [hms]
        · have hmm : Except.ok (ε := Throwable) m0 = Except.ok m := h'
          have hms : m0 = m := by simpa using hmm
          rw [hms]

lemma resolve_method_prov {env : Env} {rk : Klass} {n s : Sym}
    {ck : Klass} {ca : Bool} {m : Method}
    (hrk : env.getKlass rk.id = some rk)
    (h : resolve_method env rk n s ck ca = .ok m) :
    (∃ k ∈ superChain env rk.id, m ∈ k.methods) ∨
    (∃ ik ∈ env.klasses, ik.id ∈ rk.transitive_interfaces ∧ m ∈ ik.methods) ∨
    env.find_intrinsic n s = some m := by
  obtain ⟨-, hstage⟩ := resolve_method_ok_stages h
  rcases methodLookupStages_cases hstage with h1 | ⟨-, -, h2⟩ | ⟨-, -, -, r, hr, hr1⟩
  · obtain ⟨k, hk, hmk, -⟩ := uncached_spec (lookupMK_spec h1)
    exact Or.inl ⟨k, hk, hmk⟩
  · obtain ⟨k0, hk0, ik, hikm, hiki, hmik, -⟩ := interfaces_spec h2
    have : k0 = rk := Option.some_inj.mp (hk0.symm.trans hrk)
    exact Or.inr (Or.inl ⟨ik, hikm, this ▸ hiki, hmik⟩)
  · exact Or.inr (Or.inr (hr1 ▸ lookupPoly_noAppendix hr))

lemma methodAtVtable_spec {env : Env} {i : Nat} {idx : Int} {m : Method}
    (h : methodAtVtable env i idx = some m) :
    ∃ k, env.getKlass i = some k ∧ 0 ≤ idx ∧ nth k.vtable idx.toNat = some m := by
  unfold methodAtVtable at h
  cases hk : env.getKlass i with
  | none => rw [hk] at h; simp at h
  | some k =>
    rw [hk] at h
    change (if idx < 0 then none else nth k.vtable idx.toNat) = some m at h
    split at h
    · simp at h
    · exact ⟨k, rfl, Int.not_lt.mp (by assumption), h⟩

lemma indexOfMiranda_spec {env : Env} {i : Nat} {n s : Sym} {vi : Int}
    (hvi : indexOfMiranda env i n s = vi) (hnn : 0 ≤ vi) :
    ∃ k, env.getKlass i = some k ∧
      ∃ m, nth k.vtable vi.toNat = some m ∧ m.name = n ∧ m.signature = s := by
  unfold indexOfMiranda at hvi
  cases hk : env.getKlass i with
  | none =>
    rw [hk] at hvi
    rw [← hvi] at hnn
    simp [invalid_vtable_index] at hnn
  | some k =>
    rw [hk] at hvi
    change (match vtSearch n s k.vtable with
      | some j => (j : Int)
      | none => invalid_vtable_index) = vi at hvi
    cases hsearch : vtSearch n s k.vtable with
    | none =>
      rw [hsearch] at hvi
      have hbad : invalid_vtable_index = vi := hvi
      rw [← hbad] at hnn
      simp [invalid_vtable_index] at hnn
    | some j =>
      rw [hsearch] at hvi
      have hvj : (j : Int) = vi := hvi
      obtain ⟨m, hm, hprops⟩ := vtSearch_spec hsearch
      refine ⟨k, rfl, m, ?_, hprops⟩
      rw [← hvj]
      simpa using hm

lemma rrvm_ok_inv {env : Env} {rm : Method} {rk : Klass} {rn : Bool}
    {recvK : Klass} {cna : Bool} {ci : CallInfo}
    (h : runtime_resolve_virtual_method env rm rk rn recvK cna = .ok ci) :
    ∃ vi sel, virtualSelect env rm rk recvK = (vi, some sel) ∧
      ci = CallInfo.set_virtual rk.id recvK.id rm sel vi := by
  unfold runtime_resolve_virtual_method at h
  split at h
  · simp at h
  · cases hvs : virtualSelect env rm rk recvK with
    | mk vi osel =>
      rw [hvs] at h
      cases osel with
      | none => simp at h
      | some sel =>
        have h' : (if cna ∧ sel.is_abstract then
            (Except.error (Throwable.simple ThrowKind.abstract_method) :
              Except Throwable CallInfo)
          else .ok (CallInfo.set_virtual rk.id recvK.id rm sel vi)) =
            .ok ci := h
        split at h'
        · simp at h'
        · exact ⟨vi, sel, rfl, (Except.ok.inj h').symm⟩

/-- Receiver-based virtual selection preserves the descriptor: the fact
behind the `set_common` invariant on the virtual path.  Needs the
registry's vtable coherence and a provenance of the resolved method. -/
lemma rrvm_descriptor {env : Env} (hwf : EnvWF env) {rm : Method}
    {rk recvK : Klass} {rn cna : Bool} {ci : CallInfo}
    (hrk : rk ∈ env.klasses) (hrecv : recvK ∈ env.klasses)
    (hsub : isSubtypeOf env recvK.id rk.id = true)
    (hprov : (∃ k ∈ superChain env rk.id, rm ∈ k.methods) ∨
      (∃ ik ∈ env.klasses, ik.id ∈ rk.transitive_interfaces ∧ rm ∈ ik.methods) ∨
      rm.vtable_index = nonvirtual_vtable_index)
    (h : runtime_resolve_virtual_method env rm rk rn recvK cna = .ok ci) :
    ci.resolved_method.signature = ci.selected_method.signature := by
  have hrkid : env.getKlass rk.id = some rk := idsSelf_spec hwf.ids_self rk hrk
  have hrecvid : env.getKlass recvK.id = some recvK :=
    idsSelf_spec hwf.ids_self recvK hrecv
  unfold runtime_resolve_virtual_method at h
  split at h
  · simp at h
  · cases hvs : virtualSelect env rm rk recvK with
    | mk vi osel =>
      rw [hvs] at h
      cases osel with
      | none => simp at h
      | some sel =>
        have h' : (if cna ∧ sel.is_abstract then
            (Except.error (Throwable.simple ThrowKind.abstract_method) :
              Except Throwable CallInfo)
          else .ok (CallInfo.set_virtual rk.id recvK.id rm sel vi)) = .ok ci := h
        have hci : CallInfo.set_virtual rk.id recvK.id rm sel vi = ci := by
          split at h'
          · simp at h'
          · simpa using h'
        have hres : ci.resolved_method = rm := by rw [← hci]; rfl
        have hsel0 : ci.selected_method = sel := by rw [← hci]; rfl
        rw [hres, hsel0]
        unfold virtualSelect at hvs
        by_cases hI : klassIsInterface env rm.holder = true
        · rw [if_pos hI] at hvs
          have hvi := (Prod.mk.injEq _ _ _ _).mp hvs
          have hsel2 : methodAtVtable env recvK.id vi = some sel := by
            rw [← hvi.1]; exact hvi.2
          obtain ⟨k2, hk2, hnn, hnth2⟩ := methodAtVtable_spec hsel2
          have hk2' : k2 = recvK := by
            rw [hrecvid] at hk2; exact (Option.some_inj.mp hk2).symm
          rw [hk2'] at hnth2
          obtain ⟨k1, hk1, m1, hnth1, hname1, hsig1⟩ :=
            indexOfMiranda_spec hvi.1 hnn
          have hk1' : k1 = rk := by
            rw [hrkid] at hk1; exact (Option.some_inj.mp hk1).symm
          rw [hk1'] at hnth1
          have hpair := slotCoherent_spec hwf.slot_coherent hrk hrecv hsub
          have hps := slotPairOK_spec hpair hnth1 hnth2
          rw [hps.2, hsig1]
        · rw [if_neg hI] at hvs
          by_cases hnv : rm.vtable_index = nonvirtual_vtable_index
          · rw [if_pos hnv] at hvs
            have hvi := (Prod.mk.injEq _ _ _ _).mp hvs
            have hselrm : rm = sel := by simpa using hvi.2
            rw [hselrm]
          · rw [if_neg hnv] at hvs
            have hvi := (Prod.mk.injEq _ _ _ _).mp hvs
            obtain ⟨k2, hk2, hnn, hnth2⟩ := methodAtVtable_spec hvi.2
            have hk2' : k2 = recvK := by
              rw [hrecvid] at hk2; exact (Option.some_inj.mp hk2).symm
            rw [hk2'] at hnth2
            rcases hprov with ⟨k, hkchain, hmk⟩ | ⟨ik, hikm, hiki, hmik⟩ | hnv2
            · have hkmem : k ∈ env.klasses := superChain_mem hkchain
              have hsub1 : isSubtypeOf env rk.id k.id = true :=
                superChain_subtype hkchain
              have hsub2 : isSubtypeOf env recvK.id k.id = true :=
                subTrans_spec hwf.sub_trans hrecv hrk hkmem hsub hsub1
              obtain ⟨m', hnth1, hname', hsig'⟩ :=
                vidxSelf_spec hwf.vidx_self hkmem hmk hnn
              have hpair := slotCoherent_spec hwf.slot_coherent hkmem hrecv hsub2
              have hps := slotPairOK_spec hpair hnth1 hnth2
              rw [hps.2, hsig']
            · have hsub1 : isSubtypeOf env rk.id ik.id = true :=
                subtype_of_interface hrkid hiki
              have hsub2 : isSubtypeOf env recvK.id ik.id = true :=
                subTrans_spec hwf.sub_trans hrecv hrk hikm hsub hsub1
              obtain ⟨m', hnth1, hname', hsig'⟩ :=
                vidxSelf_spec hwf.vidx_self hikm hmik hnn
              have hpair := slotCoherent_spec hwf.slot_coherent hikm hrecv hsub2
              have hps := slotPairOK_spec hpair hnth1 hnth2
              rw [hps.2, hsig']
            · exact absurd hnv2 hnv

/-! Shape of a successful result on each resolution path. -/

lemma set_handle_shape {env : Env} {m : Method} {app mt : Option Nat}
    {ci : CallInfo} (h : CallInfo.set_handle env (some m) app mt = .ok ci) :
    ci.resolved_method = m ∧ ci.selected_method = m := by
  unfold CallInfo.set_handle at h
  have : _ = ci := Except.ok.inj h
  rw [← this]
  exact ⟨rfl, rfl⟩

lemma rrsm_ok_shape {env : Env} {rm : Method} {rk ck : Klass} {ca : Bool}
    {ci : CallInfo}
    (h : runtime_resolve_special_method env rm rk ck ca = .ok ci) :
    ∃ sel, ci = CallInfo.set_static rk.id sel := by
  unfold runtime_resolve_special_method at h
  cases hss : (if specialNeedsSuper env rm ck ca then specialSuperSel env rm ck
      else .ok rm) with
  | error e => rw [hss] at h; simp at h
  | ok sel =>
    rw [hss] at h
    have h' : (if sel.is_static then
        (Except.error (Throwable.simple ThrowKind.incompatible_class_change) :
          Except Throwable CallInfo)
      else if sel.is_abstract then
        .error (.simple .abstract_method)
      else .ok (CallInfo.set_static rk.id sel)) = .ok ci := h
    split at h'
    · simp at h'
    · split at h'
      · simp at h'
      · exact ⟨sel, (Except.ok.inj h').symm⟩

lemma rrim_ok_shape {env : Env} {rm : Method} {rk : Klass} {rn : Bool}
    {recvK : Klass} {cna : Bool} {ci : CallInfo}
    (h : runtime_resolve_interface_method env rm rk rn recvK cna = .ok ci) :
    ∃ sel, lookupInstanceMethodInKlasses env recvK.id rm.name rm.signature
        = some sel ∧
      ci = CallInfo.set_interface env rk.id recvK.id rm sel := by
  unfold runtime_resolve_interface_method at h
  split at h
  · simp at h
  · split at h
    · simp at h
    · cases hsel : lookupInstanceMethodInKlasses env recvK.id rm.name
          rm.signature with
      | none => rw [hsel] at h; simp at h
      | some sel =>
        rw [hsel] at h
        have h' : (if ¬ sel.is_public then
            (Except.error (Throwable.simple ThrowKind.illegal_access) :
              Except Throwable CallInfo)
          else if cna ∧ sel.is_abstract then
            .error (.simple .abstract_method)
          else .ok (CallInfo.set_interface env rk.id recvK.id rm sel)) =
            .ok ci := h
        split at h'
        · simp at h'
        · split at h'
          · simp at h'
          · exact ⟨sel, rfl, (Except.ok.inj h').symm⟩

lemma rsc_ok_shape {env : Env} {rk : Klass} {n s : Sym} {ck : Klass}
    {ca ic : Bool} {ci : CallInfo} {env' : Env}
    (h : resolve_static_call env rk n s ck ca ic = .ok (ci, env')) :
    ∃ hid sel, ci = CallInfo.set_static hid sel := by
  unfold resolve_static_call at h
  cases h1 : linktime_resolve_static_method env rk n s ck ca with
  | error e => rw [h1] at h; simp at h
  | ok m =>
    rw [h1] at h
    change (match env.getKlass m.holder with
      | none => (Except.error (Throwable.simple ThrowKind.internal_err) :
          Except Throwable (CallInfo × Env))
      | some holderK =>
        resolve_static_call_init env holderK n s ck ca ic m) =
      .ok (ci, env') at h
    cases h2 : env.getKlass m.holder with
    | none => rw [h2] at h; simp at h
    | some hk =>
      rw [h2] at h
      change resolve_static_call_init env hk n s ck ca ic m = .ok (ci, env') at h
      unfold resolve_static_call_init at h
      split at h
      · cases h3 : initKlass env hk.id with
        | error e => rw [h3] at h; simp at h
        | ok env2 =>
          rw [h3] at h
          change (match linktime_resolve_static_method env2 hk n s ck ca with
            | .error e => (Except.error e : Except Throwable (CallInfo × Env))
            | .ok m' => .ok (CallInfo.set_static hk.id m', env2)) =
            .ok (ci, env') at h
          cases h4 : linktime_resolve_static_method env2 hk n s ck ca with
          | error e => rw [h4] at h; simp at h
          | ok m2 =>
            rw [h4] at h
            have := Except.ok.inj h
            exact ⟨hk.id, m2, (congrArg Prod.fst this).symm⟩
      · have := Except.ok.inj h
        exact ⟨hk.id, m, (congrArg Prod.fst this).symm⟩

lemma rhc_ok_shape {env : Env} {rk : Klass} {n s : Sym} {ck : Klass}
    {ca : Bool} {ci : CallInfo}
    (h : resolve_handle_call env rk n s ck ca = .ok ci) :
    ci.resolved_method = ci.selected_method := by
  unfold resolve_handle_call at h
  cases hl : lookupPolymorphicMethod env rk n s ck.id true with
  | none =>
    rw [hl] at h
    simp [CallInfo.set_handle] at h
  | some r =>
    rw [hl] at h
    obtain ⟨m, app, mt⟩ := r
    have h' : (if ca ∧ env.poly_name_kind n = some .intrinsic_kind then
        match checkMethodAccessability env ck.id rk.id m.holder m with
        | .error e => .error e
        | .ok _ => CallInfo.set_handle env (some m) app mt
      else CallInfo.set_handle env (some m) app mt) = .ok ci := h
    split at h'
    · cases hacc : checkMethodAccessability env ck.id rk.id m.holder m with
      | error e => rw [hacc] at h'; simp at h'
      | ok u =>
        rw [hacc] at h'
        obtain ⟨h1, h2⟩ := set_handle_shape h'
        rw [h1, h2]
    · obtain ⟨h1, h2⟩ := set_handle_shape h'
      rw [h1, h2]

lemma rdc_ok_shape {env : Env} {bsm : Nat} {n s : Sym} {ck : Klass}
    {ci : CallInfo} (h : resolve_dynamic_call env bsm n s ck = .ok ci) :
    ci.resolved_method = ci.selected_method := by
  unfold resolve_dynamic_call at h
  cases hdi : env.find_dynamic_invoker ck.id bsm n s with
  | error e =>
    rw [hdi] at h
    simp at h
  | ok t =>
    rw [hdi] at h
    obtain ⟨m, app, mt⟩ := t
    cases m with
    | none => simp [CallInfo.set_handle] at h
    | some m' =>
      obtain ⟨h1, h2⟩ := set_handle_shape h
      rw [h1, h2]

lemma lrvm_ok {env : Env} {rk : Klass} {n s : Sym} {ck : Klass} {ca : Bool}
    {m : Method}
    (h : linktime_resolve_virtual_method env rk n s ck ca = .ok m) :
    resolve_method env rk n s ck ca = .ok m := by
  unfold linktime_resolve_virtual_method at h
  cases h1 : resolve_method env rk n s ck ca with
  | error e => rw [h1] at h; simp at h
  | ok m0 =>
    rw [h1] at h
    have h' : (if m0.is_static then
        (Except.error (Throwable.simple ThrowKind.incompatible_class_change) :
          Except Throwable Method)
      else .ok m0) = .ok m := h
    split at h'
    · simp at h'
    · rw [Except.ok.inj h']

lemma map_pair_ok {x : Except Throwable CallInfo} {env0 : Env}
    {ci : CallInfo} {env' : Env}
    (h : (x.map (fun c => (c, env0))) = .ok (ci, env')) :
    x = .ok ci ∧ env0 = env' := by
  cases x with
  | error e => simp [Except.map] at h
  | ok c =>
    simp only [Except.map] at h
    have := Except.ok.inj h
    exact ⟨congrArg Except.ok (congrArg Prod.fst this),
      congrArg Prod.snd this⟩

lemma rvc_ok_inv {env : Env} {rn : Bool} {rv rk : Klass} {n s : Sym}
    {ck : Klass} {ca cna : Bool} {ci : CallInfo}
    (h : resolve_virtual_call env rn rv rk n s ck ca cna = .ok ci) :
    ∃ m, linktime_resolve_virtual_method env rk n s ck ca = .ok m ∧
      runtime_resolve_virtual_method env m rk rn rv cna = .ok ci := by
  unfold resolve_virtual_call at h
  cases h1 : linktime_resolve_virtual_method env rk n s ck ca with
  | error e => rw [h1] at h; simp at h
  | ok m => rw [h1] at h; exact ⟨m, rfl, h⟩

lemma ric_ok_inv {env : Env} {rn : Bool} {rv rk : Klass} {n s : Sym}
    {ck : Klass} {ca cna : Bool} {ci : CallInfo}
    (h : resolve_interface_call env rn rv rk n s ck ca cna = .ok ci) :
    ∃ m, linktime_resolve_interface_method env rk n s ck ca = .ok m ∧
      runtime_resolve_interface_method env m rk rn rv cna = .ok ci := by
  unfold resolve_interface_call at h
  cases h1 : linktime_resolve_interface_method env rk n s ck ca with
  | error e => rw [h1] at h; simp at h
  | ok m => rw [h1] at h; exact ⟨m, rfl, h⟩

lemma rspc_ok_inv {env : Env} {rk : Klass} {n s : Sym} {ck : Klass}
    {ca : Bool} {ci : CallInfo}
    (h : resolve_special_call env rk n s ck ca = .ok ci) :
    ∃ m, linktime_resolve_special_method env rk n s ck ca = .ok m ∧
      runtime_resolve_special_method env m rk ck ca = .ok ci := by
  unfold resolve_special_call at h
  cases h1 : linktime_resolve_special_method env rk n s ck ca with
  | error e => rw [h1] at h; simp at h
  | ok m => rw [h1] at h; exact ⟨m, rfl, h⟩

/-- Preconditions a caller establishes for a resolution request: klass
handles come from the registry arena, and a virtual receiver implements
the resolved klass (guaranteed by verified bytecode before dispatch). -/
def ReqOK (env : Env) : Req → Prop
  | .staticCall rk _ _ ck _ _ => rk ∈ env.klasses ∧ ck ∈ env.klasses
  | .specialCall rk _ _ ck _ => rk ∈ env.klasses ∧ ck ∈ env.klasses
  | .virtualCall _ rv rk _ _ ck _ _ =>
    rv ∈ env.klasses ∧ rk ∈ env.klasses ∧ ck ∈ env.klasses ∧
      isSubtypeOf env rv.id rk.id = true
  | .interfaceCall _ rv rk _ _ ck _ _ =>
    rv ∈ env.klasses ∧ rk ∈ env.klasses ∧ ck ∈ env.klasses
  | .handleCall rk _ _ ck _ => rk ∈ env.klasses ∧ ck ∈ env.klasses
  | .dynamicCall _ _ _ ck => ck ∈ env.klasses

/-- C1: for every `CallInfo` that any resolution path successfully
constructs (via `set_static`, `set_interface`, `set_virtual` or
`set_handle`, all of which funnel into `set_common`), the resolved
method's descriptor (signature symbol) equals the selected method's
descriptor. -/
theorem c1_callinfo_descriptor_invariant (env : Env) (req : Req)
    (ci : CallInfo) (env' : Env) (hwf : EnvWF env) (hreq : ReqOK env req)
    (h : resolve_invoke env req = .ok (ci, env')) :
    ci.resolved_method.signature = ci.selected_method.signature := by
  cases req with
  | staticCall rk n s ck ca ic =>
    obtain ⟨hid, sel, hci⟩ := rsc_ok_shape h
    rw [hci]; rfl
  | specialCall rk n s ck ca =>
    obtain ⟨h', -⟩ := map_pair_ok h
    obtain ⟨m, -, hrr⟩ := rspc_ok_inv h'
    obtain ⟨sel, hci⟩ := rrsm_ok_shape hrr
    rw [hci]; rfl
  | virtualCall rn rv rk n s ck ca cna =>
    obtain ⟨h', -⟩ := map_pair_ok h
    obtain ⟨m, hm, hrr⟩ := rvc_ok_inv h'
    obtain ⟨hrv, hrk, hck, hsub⟩ := hreq
    have hrkid : env.getKlass rk.id = some rk := idsSelf_spec hwf.ids_self rk hrk
    have hprov0 := resolve_method_prov hrkid (lrvm_ok hm)
    have hprov : (∃ k ∈ superChain env rk.id, m ∈ k.methods) ∨
        (∃ ik ∈ env.klasses, ik.id ∈ rk.transitive_interfaces ∧
          m ∈ ik.methods) ∨
        m.vtable_index = nonvirtual_vtable_index := by
      rcases hprov0 with h1 | h2 | h3
      · exact Or.inl h1
      · exact Or.inr (Or.inl h2)
      · exact Or.inr (Or.inr (hwf.intrinsic_nonvirtual _ _ _ h3))
    exact rrvm_descriptor hwf hrk hrv hsub hprov hrr
  | interfaceCall rn rv rk n s ck ca cna =>
    obtain ⟨h', -⟩ := map_pair_ok h
    obtain ⟨m, -, hrr⟩ := ric_ok_inv h'
    obtain ⟨sel, hsel, hci⟩ := rrim_ok_shape hrr
    have hmatch := lookupInstance_matches hsel
    rw [hci]
    show m.signature = sel.signature
    exact hmatch.2.symm
  | handleCall rk n s ck ca =>
    obtain ⟨h', -⟩ := map_pair_ok h
    rw [rhc_ok_shape h']
  | dynamicCall bsm n s ck =>
    obtain ⟨h', -⟩ := map_pair_ok h
    rw [rdc_ok_shape h']

/-- C2: on every successful virtual runtime resolution, an
interface-held (default/miranda) resolved method is selected from the
receiver's vtable at the slot found by searching for the method's name
and descriptor; otherwise a resolved method with a non-negative vtable
index is selected from the receiver's vtable at that index; otherwise
(nonvirtual index, the only remaining possibility on success) the
resolved method itself is selected with no table indirection. -/
theorem c2_virtual_runtime_selection (env : Env) (rm : Method) (rk : Klass)
    (rn : Bool) (recvK : Klass) (cna : Bool) (ci : CallInfo)
    (h : runtime_resolve_virtual_method env rm rk rn recvK cna = .ok ci) :
    (klassIsInterface env rm.holder = true →
      ∃ j : Nat, indexOfMiranda env rk.id rm.name rm.signature = (j : Int) ∧
        methodAtVtable env recvK.id (j : Int) = some ci.selected_method) ∧
    (klassIsInterface env rm.holder = false → 0 ≤ rm.vtable_index →
      methodAtVtable env recvK.id rm.vtable_index = some ci.selected_method) ∧
    (klassIsInterface env rm.holder = false →
      rm.vtable_index = nonvirtual_vtable_index →
      ci.selected_method = rm) ∧
    (klassIsInterface env rm.holder = false → rm.vtable_index < 0 →
      rm.vtable_index = nonvirtual_vtable_index) := by
  obtain ⟨vi, sel, hvs, hci⟩ := rrvm_ok_inv h
  have hselci : ci.selected_method = sel := by rw [hci]; rfl
  unfold virtualSelect at hvs
  by_cases hI : klassIsInterface env rm.holder = true
  · rw [if_pos hI] at hvs
    have hvi := (Prod.mk.injEq _ _ _ _).mp hvs
    refine ⟨fun _ => ?_, fun hF => absurd hI (by rw [hF]; simp),
      fun hF => absurd hI (by rw [hF]; simp),
      fun hF => absurd hI (by rw [hF]; simp)⟩
    have hsel2 : methodAtVtable env recvK.id vi = some sel := by
      rw [← hvi.1]; exact hvi.2
    obtain ⟨k2, hk2, hnn, hnth2⟩ := methodAtVtable_spec hsel2
    refine ⟨vi.toNat, ?_, ?_⟩
    · rw [hvi.1]; exact (Int.toNat_of_nonneg hnn).symm
    · rw [hselci, Int.toNat_of_nonneg hnn]; exact hsel2
  · rw [if_neg hI] at hvs
    have hI' : klassIsInterface env rm.holder = false := by simpa using hI
    by_cases hnv : rm.vtable_index = nonvirtual_vtable_index
    · rw [if_pos hnv] at hvs
      have hvi := (Prod.mk.injEq _ _ _ _).mp hvs
      have hselrm : rm = sel := by simpa using hvi.2
      refine ⟨fun hT => absurd hT (by rw [hI']; simp), ?_, ?_, ?_⟩
      · intro _ hge
        rw [hnv] at hge
        simp [nonvirtual_vtable_index] at hge
      · intro _ _
        rw [hselci, ← hselrm]
      · intro _ _
        exact hnv
    · rw [if_neg hnv] at hvs
      have hvi := (Prod.mk.injEq _ _ _ _).mp hvs
      obtain ⟨k2, hk2, hnn, hnth2⟩ := methodAtVtable_spec hvi.2
      refine ⟨fun hT => absurd hT (by rw [hI']; simp), ?_, ?_, ?_⟩
      · intro _ _
        rw [hselci]; exact hvi.2
      · intro _ hnv2
        exact absurd hnv2 hnv
      · intro _ hlt
        exact absurd hnn (Int.not_le.mpr hlt)

/-- C3: method resolution searches in order and stops at the first
success: (a) the resolved klass and its superclass chain by exact name
and descriptor, statics included; (b) only if (a) fails and the owner is
not an array, the transitively implemented interfaces; (c) only if (b)
also fails, signature-polymorphic lookup; if all three fail the result is
`NoSuchMethodError`.  For an array owner the interface search is never
performed: (a)'s failure alone already forces `NoSuchMethodError`. -/
theorem c3_resolve_method_search_order (env : Env) (rk : Klass) (n s : Sym)
    (ck : Klass) (ca : Bool) (hni : rk.is_interface = false) :
    (∀ m, lookupMethodInKlasses env rk n s = some m →
      m.name = n ∧ m.signature = s) ∧
    (∀ m, uncachedLookupMethod env rk.id n s = some m →
      m.is_sig_poly = false → lookupMethodInKlasses env rk n s = some m) ∧
    (∀ m, resolve_method env rk n s ck ca = .ok m →
      lookupMethodInKlasses env rk n s = some m ∨
      (lookupMethodInKlasses env rk n s = none ∧ rk.is_array = false ∧
        lookupMethodInAllInterfaces env rk.id n s = some m) ∨
      (lookupMethodInKlasses env rk n s = none ∧ rk.is_array = false ∧
        lookupMethodInAllInterfaces env rk.id n s = none ∧
        ∃ r, lookupPolymorphicMethod env rk n s ck.id false = some r ∧
          r.1 = m)) ∧
    (lookupMethodInKlasses env rk n s = none →
      (rk.is_array = true ∨
        (lookupMethodInAllInterfaces env rk.id n s = none ∧
          lookupPolymorphicMethod env rk n s ck.id false = none)) →
      resolve_method env rk n s ck ca = .error (.simple .no_such_method)) := by
  refine ⟨?_, ?_, ?_, ?_⟩
  · intro m hm
    obtain ⟨-, -, -, hprops⟩ := uncached_spec (lookupMK_spec hm)
    exact hprops
  · intro m hu hpoly
    unfold lookupMethodInKlasses
    split
    · exact hu
    · rw [hu]
      show (if env.enable_invoke_dynamic = true ∧ m.is_sig_poly = true then
        (none : Option Method) else some m) = some m
      rw [if_neg (by simp [hpoly])]
  · intro m hm
    exact methodLookupStages_cases (resolve_method_ok_stages hm).2
  · intro h1 h2
    have hstage : methodLookupStages env rk n s ck.id = none := by
      unfold methodLookupStages
      rw [h1]
      rcases h2 with h2 | ⟨h2a, h2b⟩
      · rw [if_pos h2]
      · by_cases ha : rk.is_array = true
        · rw [if_pos ha]
        · rw [if_neg ha, h2a, h2b]; rfl
    unfold resolve_method
    rw [if_neg (by simp [hni]), hstage]

/-- C4: for interface runtime resolution (receiver present or runtime
checks off), a receiver that is not a subtype of the resolved interface
yields `IncompatibleClassChangeError` — the subtype check precedes member
lookup, so the result is never `NoSuchMethodError`; and when the receiver
does implement the interface, a non-public method selected from the
receiver's hierarchy yields `IllegalAccessError`. -/
theorem c4_interface_runtime_checks (env : Env) (rm : Method) (rk : Klass)
    (rn : Bool) (recvK : Klass) (cna : Bool)
    (hno : ¬ (cna = true ∧ rn = true)) :
    (isSubtypeOf env recvK.id rk.id = false →
      runtime_resolve_interface_method env rm rk rn recvK cna
        = .error (.simple .incompatible_class_change)) ∧
    (∀ sel, isSubtypeOf env recvK.id rk.id = true →
      lookupInstanceMethodInKlasses env recvK.id rm.name rm.signature
        = some sel →
      sel.is_public = false →
      runtime_resolve_interface_method env rm rk rn recvK cna
        = .error (.simple .illegal_access)) := by
  constructor
  · intro hsub
    unfold runtime_resolve_interface_method
    rw [if_neg hno, if_pos (by simp [hsub])]
  · intro sel hsub hsel hpub
    unfold runtime_resolve_interface_method
    rw [if_neg hno, if_neg (by simp [hsub]), hsel]
    show (if ¬ sel.is_public = true then
        (Except.error (Throwable.simple ThrowKind.illegal_access) :
          Except Throwable CallInfo)
      else if cna = true ∧ sel.is_abstract = true then
        .error (.simple .abstract_method)
      else .ok (CallInfo.set_interface env rk.id recvK.id rm sel)) =
      .error (.simple .illegal_access)
    rw [if_pos (by simp [hpub])]

/-- C5: for static-linkage resolution, an interface owner or a
non-static resolved method yields `IncompatibleClassChangeError`; and on
success with initialization requested, the declaring klass of the
resolved method (recorded as the resolved klass of the call) is
initialized in the resulting environment. -/
theorem c5_static_linkage (env : Env) (rk : Klass) (n s : Sym) (ck : Klass)
    (ca : Bool) :
    (∀ ic, rk.is_interface = true →
      resolve_static_call env rk n s ck ca ic
        = .error (.simple .incompatible_class_change)) ∧
    (∀ ic m, resolve_method env rk n s ck ca = .ok m → m.is_static = false →
      resolve_static_call env rk n s ck ca ic
        = .error (.simple .incompatible_class_change)) ∧
    (∀ ci env', resolve_static_call env rk n s ck ca true = .ok (ci, env') →
      env'.init_state.contains ci.resolved_klass = true) := by
  refine ⟨?_, ?_, ?_⟩
  · intro ic hi
    have h1 : resolve_method env rk n s ck ca
        = .error (.simple .incompatible_class_change) := by
      unfold resolve_method; rw [if_pos hi]
    have h2 : linktime_resolve_static_method env rk n s ck ca
        = .error (.simple .incompatible_class_change) := by
      unfold linktime_resolve_static_method; rw [h1]
    unfold resolve_static_call; rw [h2]
  · intro ic m hm hst
    have h2 : linktime_resolve_static_method env rk n s ck ca
        = .error (.simple .incompatible_class_change) := by
      unfold linktime_resolve_static_method
      rw [hm]
      show (if ¬ m.is_static = true then
          (Except.error (Throwable.simple ThrowKind.incompatible_class_change) :
            Except Throwable Method)
        else .ok m) = .error (.simple .incompatible_class_change)
      rw [if_pos (by simp [hst])]
    unfold resolve_static_call; rw [h2]
  · intro ci env' h
    unfold resolve_static_call at h
    cases h1 : linktime_resolve_static_method env rk n s ck ca with
    | error e => rw [h1] at h; simp at h
    | ok m =>
      rw [h1] at h
      change (match env.getKlass m.holder with
        | none => (Except.error (Throwable.simple ThrowKind.internal_err) :
            Except Throwable (CallInfo × Env))
        | some holderK =>
          resolve_static_call_init env holderK n s ck ca true m) =
        .ok (ci, env') at h
      cases h2 : env.getKlass m.holder with
      | none => rw [h2] at h; simp at h
      | some hk =>
        rw [h2] at h
        change resolve_static_call_init env hk n s ck ca true m
          = .ok (ci, env') at h
        unfold resolve_static_call_init at h
        split at h
        · cases h3 : initKlass env hk.id with
          | error e => rw [h3] at h; simp at h
          | ok env2 =>
            rw [h3] at h
            change (match linktime_resolve_static_method env2 hk n s ck ca with
              | .error e => (Except.error e : Except Throwable (CallInfo × Env))
              | .ok m' => .ok (CallInfo.set_static hk.id m', env2)) =
              .ok (ci, env') at h
            cases h4 : linktime_resolve_static_method env2 hk n s ck ca with
            | error e => rw [h4] at h; simp at h
            | ok m2 =>
              rw [h4] at h
              have hpair := Except.ok.inj h
              have henv : env2 = env' := congrArg Prod.snd hpair
              have hci : CallInfo.set_static hk.id m2 = ci :=
                congrArg Prod.fst hpair
              have hres : ci.resolved_klass = hk.id := by rw [← hci]; rfl
              rw [hres, ← henv]
              unfold initKlass at h3
              split at h3
              · simp at h3
              · split at h3
                · have henv2 : env = env2 := Except.ok.inj h3
                  rw [← henv2]
                  assumption
                · have henv2 : _ = env2 := Except.ok.inj h3
                  rw [← henv2]
                  simp
        · have hpair := Except.ok.inj h
          have henv : env = env' := congrArg Prod.snd hpair
          have hci : CallInfo.set_static hk.id m = ci :=
            congrArg Prod.fst hpair
          have hres : ci.resolved_klass = hk.id := by rw [← hci]; rfl
          rw [hres, ← henv]
          rename_i hcond
          have hsb : shouldBeInit env hk.id = false := by
            by_cases hs : shouldBeInit env hk.id = true
            · exact absurd ⟨rfl, hs⟩ hcond
            · simpa using hs
          unfold shouldBeInit at hsb
          simpa using hsb

/-- C6: for special-linkage runtime resolution with access checking,
when the caller carries the `ACC_SUPER` marker, the resolved method's
holder is a strict superclass of the caller, and the method is not a
constructor, the selection is re-looked-up from the caller's immediate
superclass: a missing result yields `AbstractMethodError`; a static
result yields `IncompatibleClassChangeError`; an abstract result yields
`AbstractMethodError`; otherwise the re-looked-up method is selected. -/
theorem c6_special_super_rules (env : Env) (rm : Method) (rk ck : Klass)
    (hsuper : ck.acc_super = true)
    (hchain : rm.holder ∈ superChainIds env ck.id)
    (hne : rm.holder ≠ ck.id)
    (hname : rm.name ≠ env.ctor_name) :
    ∀ sup, ck.super_id = some sup →
      (lookupInstanceMethodInKlasses env sup rm.name rm.signature = none →
        runtime_resolve_special_method env rm rk ck true
          = .error (.simple .abstract_method)) ∧
      (∀ sel,
        lookupInstanceMethodInKlasses env sup rm.name rm.signature = some sel →
        (sel = rm ∨
          checkMethodLoaderConstraints env sel sel.signature ck.id = .ok ()) →
        (sel.is_static = true →
          runtime_resolve_special_method env rm rk ck true
            = .error (.simple .incompatible_class_change)) ∧
        (sel.is_static = false → sel.is_abstract = true →
          runtime_resolve_special_method env rm rk ck true
            = .error (.simple .abstract_method)) ∧
        (sel.is_static = false → sel.is_abstract = false →
          runtime_resolve_special_method env rm rk ck true
            = .ok (CallInfo.set_static rk.id sel))) := by
  intro sup hsup
  have hsubt : isSubtypeOf env ck.id rm.holder = true :=
    superChainIds_subtype hchain
  have hds : specialNeedsSuper env rm ck true = true := by
    unfold specialNeedsSuper
    rw [hsuper, hsubt]
    simp [hname, Ne.symm hne]
  have hstep : (if specialNeedsSuper env rm ck true = true then
      specialSuperSel env rm ck else .ok rm) = specialSuperSel env rm ck :=
    if_pos hds
  constructor
  · intro hnone
    have hss : specialSuperSel env rm ck = .error (.simple .abstract_method) := by
      unfold specialSuperSel
      rw [hsup]
      change (match lookupInstanceMethodInKlasses env sup rm.name
          rm.signature with
        | none => (Except.error (Throwable.simple ThrowKind.abstract_method) :
            Except Throwable Method)
        | some sel =>
          if sel ≠ rm then
            match checkMethodLoaderConstraints env sel sel.signature ck.id with
            | .error e => .error e
            | .ok _ => .ok sel
          else .ok sel) = .error (.simple .abstract_method)
      rw [hnone]
    unfold runtime_resolve_special_method
    rw [hstep, hss]
  · intro sel hsel hok
    have hsupersel : specialSuperSel env rm ck = .ok sel := by
      unfold specialSuperSel
      rw [hsup]
      change (match lookupInstanceMethodInKlasses env sup rm.name
          rm.signature with
        | none => (Except.error (Throwable.simple ThrowKind.abstract_method) :
            Except Throwable Method)
        | some sel =>
          if sel ≠ rm then
            match checkMethodLoaderConstraints env sel sel.signature ck.id with
            | .error e => .error e
            | .ok _ => .ok sel
          else .ok sel) = .ok sel
      rw [hsel]
      rcases hok with rfl | hlc
      · show (if sel ≠ sel then _ else Except.ok sel) = Except.ok sel
        rw [if_neg (fun hc => absurd rfl hc)]
      · by_cases heq : sel = rm
        · show (if sel ≠ rm then _ else Except.ok sel) = Except.ok sel
          rw [if_neg (fun hc => absurd heq hc)]
        · show (if sel ≠ rm then
              (match checkMethodLoaderConstraints env sel sel.signature
                  ck.id with
                | .error e => Except.error e
                | .ok _ => Except.ok sel)
            else Except.ok sel) = Except.ok sel
          rw [if_pos heq, hlc]
    have hrun : runtime_resolve_special_method env rm rk ck true =
        (if sel.is_static then
          .error (.simple .incompatible_class_change)
        else if sel.is_abstract then .error (.simple .abstract_method)
        else .ok (CallInfo.set_static rk.id sel)) := by
      unfold runtime_resolve_special_method
      rw [hstep, hsupersel]
    refine ⟨?_, ?_, ?_⟩
    · intro hst
      rw [hrun, if_pos hst]
    · intro hst hab
      rw [hrun, if_neg (by simp [hst]), if_pos hab]
    · intro hst hab
      rw [hrun, if_neg (by simp [hst]), if_neg (by simp [hab])]

lemma not_linkage_not_bsme {k : ThrowKind} (h : k.is_linkage_error = false) :
    k.is_bootstrap_method_error = false := by
  cases k <;>
    simp [ThrowKind.is_linkage_error, ThrowKind.is_bootstrap_method_error]
      at h ⊢

/-- C7: when the bootstrap collaborator fails, an error that is already a
`BootstrapMethodError` propagates unchanged; a `LinkageError` of any
other kind is wrapped as `BootstrapMethodError` preserving the original
as cause; an error of any non-linkage kind propagates unchanged. -/
theorem c7_dynamic_error_translation (env : Env) (bsm : Nat) (n s : Sym)
    (ck : Klass) (e : Throwable)
    (h : env.find_dynamic_invoker ck.id bsm n s = .error e) :
    (e.kind.is_bootstrap_method_error = true →
      resolve_dynamic_call env bsm n s ck = .error e) ∧
    (e.kind.is_bootstrap_method_error = false →
      e.kind.is_linkage_error = true →
      resolve_dynamic_call env bsm n s ck
        = .error (.wrapped .bootstrap_method e)) ∧
    (e.kind.is_linkage_error = false →
      resolve_dynamic_call env bsm n s ck = .error e) := by
  have hbase : resolve_dynamic_call env bsm n s ck
      = .error (dynamicErrorTranslate e) := by
    unfold resolve_dynamic_call; rw [h]
  refine ⟨?_, ?_, ?_⟩
  · intro hb
    rw [hbase]
    unfold dynamicErrorTranslate
    rw [if_pos hb]
  · intro hb hl
    rw [hbase]
    unfold dynamicErrorTranslate
    rw [if_neg (by simp [hb]), if_neg (by simp [hl])]
  · intro hl
    have hb := not_linkage_not_bsme hl
    rw [hbase]
    unfold dynamicErrorTranslate
    rw [if_neg (by simp [hb]), if_pos (by simp [hl])]

/-- C9: in the method access check, when the member is named `clone`,
its declaring klass is the root `Object` klass and the resolved owner is
an array klass, access is granted to every referring klass regardless of
the declared protected flag; for every other member the declared access
flags are used unchanged. -/
theorem c9_array_clone_access (env : Env) (refK resolvedK selK : Nat)
    (m : Method) :
    ((m.name = env.clone_name ∧ selK = env.object_id ∧
        klassIsArray env resolvedK = true) →
      checkMethodAccessability env refK resolvedK selK m = .ok ()) ∧
    (¬ (m.name = env.clone_name ∧ selK = env.object_id ∧
        klassIsArray env resolvedK = true) →
      checkMethodAccessability env refK resolvedK selK m =
        (if verifyMemberAccess env refK resolvedK selK m.is_public
            m.is_protected m.is_private m.is_static then .ok ()
         else .error (.simple .illegal_access))) := by
  constructor
  · intro hcond
    unfold checkMethodAccessability
    rw [if_pos hcond]
    simp [verifyMemberAccess]
  · intro hcond
    unfold checkMethodAccessability
    rw [if_neg hcond]

lemma checkFieldLoaderConstraints_initUpdate (env : Env) (l : List Nat)
    (r k : Nat) (sig : Sym) :
    checkFieldLoaderConstraints { env with init_state := l } r k sig
      = checkFieldLoaderConstraints env r k sig := rfl

/-- Counterexample for C8 as stated: with access checking off, a class
method resolution succeeds although the referring klass's loader and the
declaring klass's loader resolve a type of the method's descriptor to two
different concrete types — no loader-constraint failure is raised. -/
theorem c8_counterexample_skipped_without_access_check :
    resolve_method envC8 kHold 81 30 kCur false = .ok mConf ∧
    checkSignatureLoaders envC8 30 (klassLoader envC8 kCur.id)
      (klassLoader envC8 mConf.holder) = some 7 :=
  ⟨rfl, rfl⟩

/-- C8 (amended): when access checking is requested, after a successful
class-method or interface-method lookup whose earlier checks pass, a
loader conflict on a type of the descriptor fails the resolution with the
loader-constraint error; for field resolution the check is unconditional
(given the earlier steps pass and initialization does not fail). -/
theorem c8_amended_loader_constraint_enforcement (env : Env) (rk : Klass)
    (n s : Sym) (ck : Klass) :
    (∀ m t, methodLookupStages env rk n s ck.id = some m →
      rk.is_interface = false →
      ¬ (m.is_abstract = true ∧ ¬ rk.is_abstract = true) →
      checkMethodAccessability env ck.id rk.id m.holder m = .ok () →
      checkSignatureLoaders env s (klassLoader env ck.id)
        (klassLoader env m.holder) = some t →
      resolve_method env rk n s ck true
        = .error (.simple .loader_constraint)) ∧
    (∀ m t, interfaceLookupStages env rk n s = some m →
      rk.is_interface = true →
      checkSignatureLoaders env s (klassLoader env ck.id)
        (klassLoader env m.holder) = some t →
      resolve_interface_method env rk n s ck true
        = .error (.simple .loader_constraint)) ∧
    (∀ byte co selK fd t,
      findFieldFrom env n s (env.klasses.length + 1) rk.id
        = some (selK, fd) →
      checkFieldAccessability env ck.id rk.id selK fd = .ok () →
      fieldIsStaticByte byte = fd.is_static →
      ¬ (fieldIsPutByte byte = true ∧ fd.is_final = true ∧ selK ≠ ck.id) →
      env.init_failure selK = false →
      checkSignatureLoaders env s (klassLoader env ck.id)
        (klassLoader env selK) = some t →
      resolve_field env (some rk) n s ck byte co
        = .error (.simple .loader_constraint)) := by
  refine ⟨?_, ?_, ?_⟩
  · intro m t hstage hni hnabs hacc hconf
    have hlc : checkMethodLoaderConstraints env m s ck.id
        = .error (.simple .loader_constraint) := by
      unfold checkMethodLoaderConstraints
      rw [hconf]
    unfold resolve_method
    rw [if_neg (by simp [hni]), hstage]
    change (if m.is_abstract = true ∧ ¬ rk.is_abstract = true then
        (Except.error (Throwable.simple ThrowKind.abstract_method) :
          Except Throwable Method)
      else if true = true then
        match checkMethodAccessability env ck.id rk.id m.holder m with
        | .error e => .error e
        | .ok _ =>
          match checkMethodLoaderConstraints env m s ck.id with
          | .error e => .error e
          | .ok _ => .ok m
      else .ok m) = .error (.simple .loader_constraint)
    rw [if_neg hnabs, if_pos rfl, hacc, hlc]
  · intro m t hstage hii hconf
    have hlc : checkMethodLoaderConstraints env m s ck.id
        = .error (.simple .loader_constraint) := by
      unfold checkMethodLoaderConstraints
      rw [hconf]
    unfold resolve_interface_method
    rw [if_neg (by simp [hii]), hstage]
    change (if true = true then
        match checkMethodLoaderConstraints env m s ck.id with
        | .error e => (Except.error e : Except Throwable Method)
        | .ok _ => .ok m
      else .ok m) = .error (.simple .loader_constraint)
    rw [if_pos rfl, hlc]
  · intro byte co selK fd t hff hacc hsb hnput hfail hconf
    have hflc : checkFieldLoaderConstraints env ck.id selK s
        = .error (.simple .loader_constraint) := by
      unfold checkFieldLoaderConstraints
      rw [hconf]
    change resolve_field_known env rk n s ck byte co
      = .error (.simple .loader_constraint)
    unfold resolve_field_known
    rw [hff]
    change resolve_field_checked env rk ck.id s byte co selK fd
      = .error (.simple .loader_constraint)
    unfold resolve_field_checked
    rw [hacc, if_neg (by simp [hsb]), if_neg hnput]
    by_cases hcase : fieldIsStaticByte byte = true ∧ ¬ co = true
    · rw [if_pos hcase]
      unfold initKlass
      rw [if_neg (by simp [hfail])]
      by_cases hc : env.init_state.contains selK = true
      · rw [if_pos hc]
        change (match checkFieldLoaderConstraints env ck.id selK s with
          | Except.error e =>
            (Except.error e : Except Throwable (FieldAccessInfo × Env))
          | Except.ok _ => Except.ok (fieldInfoOf selK fd, env))
          = .error (.simple .loader_constraint)
        rw [hflc]
      · rw [if_neg hc]
        change (match checkFieldLoaderConstraints
            { env with init_state := selK :: env.init_state } ck.id selK s with
          | Except.error e =>
            (Except.error e : Except Throwable (FieldAccessInfo × Env))
          | Except.ok _ => Except.ok (fieldInfoOf selK fd,
              { env with init_state := selK :: env.init_state }))
          = .error (.simple .loader_constraint)
        rw [checkFieldLoaderConstraints_initUpdate, hflc]
    · rw [if_neg hcase]
      change (match checkFieldLoaderConstraints env ck.id selK s with
        | Except.error e =>
          (Except.error e : Except Throwable (FieldAccessInfo × Env))
        | Except.ok _ => Except.ok (fieldInfoOf selK fd, env))
        = .error (.simple .loader_constraint)
      rw [hflc]

/-- C10: a put-category access (`putfield` or `putstatic`) to a final
field declared outside the referring klass fails with `IllegalAccessError`
even when the ordinary access check succeeds, while get-category accesses
(`getfield`, `getstatic`) of the same final field are not subject to the
restriction and (loader constraints permitting) succeed. -/
theorem c10_final_field_store_restriction (env : Env) (rk : Klass)
    (n s : Sym) (ck : Klass) (co : Bool) (selK : Nat) (fd : Fld)
    (hff : findFieldFrom env n s (env.klasses.length + 1) rk.id
      = some (selK, fd))
    (hacc : checkFieldAccessability env ck.id rk.id selK fd = .ok ())
    (hfin : fd.is_final = true) (hne : selK ≠ ck.id) :
    (fd.is_static = false →
      resolve_field env (some rk) n s ck .putfield co
        = .error (.simple .illegal_access)) ∧
    (fd.is_static = true →
      resolve_field env (some rk) n s ck .putstatic co
        = .error (.simple .illegal_access)) ∧
    (fd.is_static = false →
      checkSignatureLoaders env s (klassLoader env ck.id)
        (klassLoader env selK) = none →
      resolve_field env (some rk) n s ck .getfield co
        = .ok (fieldInfoOf selK fd, env)) ∧
    (fd.is_static = true →
      checkSignatureLoaders env s (klassLoader env ck.id)
        (klassLoader env selK) = none →
      resolve_field env (some rk) n s ck .getstatic true
        = .ok (fieldInfoOf selK fd, env)) := by
  refine ⟨?_, ?_, ?_, ?_⟩
  · intro hstf
    change resolve_field_known env rk n s ck .putfield co
      = .error (.simple .illegal_access)
    unfold resolve_field_known
    rw [hff]
    change resolve_field_checked env rk ck.id s .putfield co selK fd
      = .error (.simple .illegal_access)
    unfold resolve_field_checked
    rw [hacc, if_neg (by simp [hstf, fieldIsStaticByte]),
      if_pos ⟨rfl, hfin, hne⟩]
  · intro hstt
    change resolve_field_known env rk n s ck .putstatic co
      = .error (.simple .illegal_access)
    unfold resolve_field_known
    rw [hff]
    change resolve_field_checked env rk ck.id s .putstatic co selK fd
      = .error (.simple .illegal_access)
    unfold resolve_field_checked
    rw [hacc, if_neg (by simp [hstt, fieldIsStaticByte]),
      if_pos ⟨rfl, hfin, hne⟩]
  · intro hstf hok
    have hflc : checkFieldLoaderConstraints env ck.id selK s = .ok () := by
      unfold checkFieldLoaderConstraints
      rw [hok]
    change resolve_field_known env rk n s ck .getfield co
      = .ok (fieldInfoOf selK fd, env)
    unfold resolve_field_known
    rw [hff]
    change resolve_field_checked env rk ck.id s .getfield co selK fd
      = .ok (fieldInfoOf selK fd, env)
    unfold resolve_field_checked
    rw [hacc, if_neg (by simp [hstf, fieldIsStaticByte]),
      if_neg (by simp [fieldIsPutByte]),
      if_neg (by simp [fieldIsStaticByte])]
    change (match checkFieldLoaderConstraints env ck.id selK s with
      | Except.error e =>
        (Except.error e : Except Throwable (FieldAccessInfo × Env))
      | Except.ok _ => Except.ok (fieldInfoOf selK fd, env))
      = .ok (fieldInfoOf selK fd, env)
    rw [hflc]
  · intro hstt hok
    have hflc : checkFieldLoaderConstraints env ck.id selK s = .ok () := by
      unfold checkFieldLoaderConstraints
      rw [hok]
    change resolve_field_known env rk n s ck .getstatic true
      = .ok (fieldInfoOf selK fd, env)
    unfold resolve_field_known
    rw [hff]
    change resolve_field_checked env rk ck.id s .getstatic true selK fd
      = .ok (fieldInfoOf selK fd, env)
    unfold resolve_field_checked
    rw [hacc, if_neg (by simp [hstt, fieldIsStaticByte]),
      if_neg (by simp [fieldIsPutByte]), if_neg (by simp)]
    change (match checkFieldLoaderConstraints env ck.id selK s with
      | Except.error e =>
        (Except.error e : Except Throwable (FieldAccessInfo × Env))
      | Except.ok _ => Except.ok (fieldInfoOf selK fd, env))
      = .ok (fieldInfoOf selK fd, env)
    rw [hflc]

/-- The sample environment is well formed. -/
lemma envC1_wf : EnvWF envC1 :=
  ⟨by decide, by decide, by decide, by decide, by decide,
    fun _ _ _ h => Option.noConfusion h⟩

/-- Witness for C1: the virtual scenario resolves `Base.area` against a
`Circle` receiver, and the descriptor invariant holds on its result. -/
theorem c1_callinfo_descriptor_invariant_witness :
    resolve_invoke envC1 reqC1 = .ok (ciC1, envC1) ∧
    ciC1.resolved_method.signature = ciC1.selected_method.signature :=
  ⟨rfl, c1_callinfo_descriptor_invariant envC1 reqC1 ciC1 envC1 envC1_wf
    ⟨by decide, by decide, by decide, by decide⟩ rfl⟩

/-- Witness for C2: the sample virtual runtime resolution succeeds, the
resolved method's holder is a class with vtable index 0, and the selected
method is read from the receiver's vtable at that index. -/
theorem c2_virtual_runtime_selection_witness :
    runtime_resolve_virtual_method envC1 mAreaBase baseW false circleW true
      = .ok ciC1 ∧
    methodAtVtable envC1 circleW.id mAreaBase.vtable_index
      = some ciC1.selected_method :=
  ⟨rfl, (c2_virtual_runtime_selection envC1 mAreaBase baseW false circleW
    true ciC1 rfl).2.1 (by decide) (by decide)⟩

/-- Witness for C3: an array owner whose hierarchy lookup fails resolves
to `NoSuchMethodError` even though a transitively listed interface
declares a matching method — the interface search is never reached. -/
theorem c3_resolve_method_search_order_witness :
    lookupMethodInAllInterfaces envC3 arrW.id 10 20 = some mExtraIface ∧
    resolve_method envC3 arrW 10 20 objectW true
      = .error (.simple .no_such_method) :=
  ⟨by decide,
    (c3_resolve_method_search_order envC3 arrW 10 20 objectW true
      (by decide)).2.2.2 (by decide) (Or.inl (by decide))⟩

/-- Witness for C5: the sample static call initializes the declaring
klass, and a static-linkage request for a non-static method fails with
`IncompatibleClassChangeError`. -/
theorem c5_static_linkage_witness :
    resolve_static_call envC5 statK 50 51 statK true true
      = .ok (CallInfo.set_static 40 mStat, envC5') ∧
    envC5'.init_state.contains (CallInfo.set_static 40 mStat).resolved_klass
      = true ∧
    resolve_static_call envC1 baseW 10 20 circleW true true
      = .error (.simple .incompatible_class_change) :=
  ⟨rfl,
   (c5_static_linkage envC5 statK 50 51 statK true).2.2
     (CallInfo.set_static 40 mStat) envC5' rfl,
   (c5_static_linkage envC1 baseW 10 20 circleW true).2.1 true mAreaBase rfl
     (by decide)⟩

/-- Witness for C6: an explicit super call from the marked caller
re-selects the superclass implementation. -/
theorem c6_special_super_rules_witness :
    runtime_resolve_special_method envC6 mSuperImpl pK pK true
      = .ok (CallInfo.set_static pK.id mSuperImpl) ∧
    (CallInfo.set_static pK.id mSuperImpl).selected_method = mSuperImpl :=
  ⟨((c6_special_super_rules envC6 mSuperImpl pK pK (by decide) (by decide)
      (by decide) (by decide) 0 rfl).2 mSuperImpl (by decide)
      (Or.inl rfl)).2.2 (by decide) (by decide),
   rfl⟩

/-- Witness for C7: a plain linkage error from the collaborator is
wrapped with the original as cause, and a non-linkage error propagates
unchanged. -/
theorem c7_dynamic_error_translation_witness :
    resolve_dynamic_call envC7 0 1 2 objectW
      = .error (.wrapped .bootstrap_method errL) ∧
    resolve_dynamic_call baseEnv 0 1 2 objectW
      = .error (.simple (.other 0)) :=
  ⟨(c7_dynamic_error_translation envC7 0 1 2 objectW errL rfl).2.1
      (by decide) (by decide),
   (c7_dynamic_error_translation baseEnv 0 1 2 objectW
      (.simple (.other 0)) rfl).2.2 (by decide)⟩

/-- Witness for C9: the protected `clone` of the root klass is accessible
through an array owner from an unrelated klass, while a non-clone member
with non-public flags is rejected by the unchanged-flag check. -/
theorem c9_array_clone_access_witness :
    checkMethodAccessability envC3 31 3 0 mClone = .ok () ∧
    checkMethodAccessability envC3 31 3 0 mImplPriv
      = .error (.simple .illegal_access) :=
  ⟨(c9_array_clone_access envC3 31 3 0 mClone).1
      ⟨rfl, rfl, by decide⟩,
   ((c9_array_clone_access envC3 31 3 0 mImplPriv).2 (by decide)).trans
      rfl⟩

/-- Witness for C8 (amended): with access checking on, the conflicting
method resolution fails with the loader-constraint error, and the
conflicting field resolution fails unconditionally. -/
theorem c8_amended_loader_constraint_enforcement_witness :
    resolve_method envC8 kHold 81 30 kCur true
      = .error (.simple .loader_constraint) ∧
    resolve_field envC8 (some kHold) 83 30 kCur .getfield true
      = .error (.simple .loader_constraint) :=
  ⟨(c8_amended_loader_constraint_enforcement envC8 kHold 81 30 kCur).1
      mConf 7 rfl (by decide) (by decide) rfl rfl,
   (c8_amended_loader_constraint_enforcement envC8 kHold 83 30 kCur).2.2
      .getfield true 80 fConf 7 rfl rfl (by decide) (by decide) rfl rfl⟩

/-- Witness for C10: storing to the sample final fields from a foreign
klass fails although reading them succeeds. -/
theorem c10_final_field_store_restriction_witness :
    resolve_field envC10 (some gK) 40 41 hK .putstatic false
      = .error (.simple .illegal_access) ∧
    resolve_field envC10 (some gK) 40 41 hK .getstatic true
      = .ok (fieldInfoOf 90 fFin, envC10) ∧
    resolve_field envC10 (some gK) 42 41 hK .putfield false
      = .error (.simple .illegal_access) ∧
    resolve_field envC10 (some gK) 42 41 hK .getfield false
      = .ok (fieldInfoOf 90 fFinI, envC10) :=
  ⟨(c10_final_field_store_restriction envC10 gK 40 41 hK false 90 fFin
      rfl rfl rfl (by decide)).2.1 rfl,
   (c10_final_field_store_restriction envC10 gK 40 41 hK true 90 fFin
      rfl rfl rfl (by decide)).2.2.2 rfl rfl,
   (c10_final_field_store_restriction envC10 gK 42 41 hK false 90 fFinI
      rfl rfl rfl (by decide)).1 rfl,
   (c10_final_field_store_restriction envC10 gK 42 41 hK false 90 fFinI
      rfl rfl rfl (by decide)).2.2.1 rfl rfl⟩

/-- Witness for C4: resolving the sample interface method against a
receiver that does not implement the interface yields
`IncompatibleClassChangeError`, and against an implementing receiver
whose implementation is non-public yields `IllegalAccessError`. -/
theorem c4_interface_runtime_checks_witness :
    runtime_resolve_interface_method envC4 mIDecl ifaceI false dPlain true
      = .error (.simple .incompatible_class_change) ∧
    runtime_resolve_interface_method envC4 mIDecl ifaceI false cImpl true
      = .error (.simple .illegal_access) :=
  ⟨(c4_interface_runtime_checks envC4 mIDecl ifaceI false dPlain true
      (by simp)).1 (by decide),
   (c4_interface_runtime_checks envC4 mIDecl ifaceI false cImpl true
      (by simp)).2 mImplPriv (by decide) (by decide) (by decide)⟩

end LinkRes
